import Mathlib

/-!
Verification of the devctx MCP server core (state store, todo store,
similarity deduplicator, marker-bounded document sync, passive capture
hooks, source annotation scanner, session lifecycle controller).

Each TypeScript function that a claim depends on is shallowly embedded as
an executable Lean definition, translated from the source.  Strings are
modelled as lists of characters where fine-grained positional reasoning is
needed; `String` wrappers keep the source signatures recognisable.
-/

set_option maxRecDepth 4000

-- ════════════════════════════════════════════════════════════
-- §0 Generic character/list utilities shared by the embeddings
-- ════════════════════════════════════════════════════════════

/-- Whitespace as JavaScript's trim family sees it (the documents at hand
only contain spaces, tabs, carriage returns and newlines). -/
def isWs (c : Char) : Bool :=
  c = ' ' || c = '\t' || c = '\n' || c = '\r'

/-- JavaScript word character, the class matched by the regex escape for
word boundaries: ASCII letters, digits and underscore. -/
def isWordChar (c : Char) : Bool :=
  ('a' ≤ c && c ≤ 'z') || ('A' ≤ c && c ≤ 'Z') || ('0' ≤ c && c ≤ '9') || c = '_'

/-- ASCII alphanumeric character (token character of the deduplicator). -/
def isAlnum (c : Char) : Bool :=
  ('a' ≤ c && c ≤ 'z') || ('A' ≤ c && c ≤ 'Z') || ('0' ≤ c && c ≤ '9')

/-- ASCII lower-casing, the effect of toLowerCase on the inputs at hand. -/
def lowerCh (c : Char) : Char :=
  if 'A' ≤ c && c ≤ 'Z' then Char.ofNat (c.toNat + 32) else c

/-- Position of the first occurrence of pattern m in s (JavaScript
String.indexOf), as an option. -/
def firstIdx (m : List Char) : List Char → Option Nat
  | [] => if m.isEmpty then some 0 else none
  | c :: rest =>
    if m.isPrefixOf (c :: rest) then some 0
    else (firstIdx m rest).map (· + 1)

/-- Substring test (JavaScript String.includes). -/
def containsSub (m s : List Char) : Bool :=
  (firstIdx m s).isSome

/-- Occurrence of m in s at index k, the proposition firstIdx searches for. -/
def occursAt (m s : List Char) (k : Nat) : Prop :=
  m.isPrefixOf (s.drop k) = true

instance (m s : List Char) (k : Nat) : Decidable (occursAt m s k) := by
  unfold occursAt; infer_instance

/-- Right trim (JavaScript trimEnd): drop trailing whitespace. -/
def trimEnd (s : List Char) : List Char :=
  (s.reverse.dropWhile isWs).reverse

/-- Two-sided trim (JavaScript trim). -/
def trimL (s : List Char) : List Char :=
  (trimEnd s).dropWhile isWs

/-- Join a list of lines with newline separators. -/
def joinNl : List (List Char) → List Char
  | [] => []
  | [l] => l
  | l :: l2 :: ls => l ++ '\n' :: joinNl (l2 :: ls)

/-- String wrapper of joinNl; the template literals below are written as
their line lists joined by newlines. -/
def joinLines (ls : List String) : String :=
  ⟨joinNl (ls.map String.data)⟩

-- ════════════════════════════════════════════════════════════
-- §1 Data model (src/shared/types.ts)
-- ════════════════════════════════════════════════════════════

/-- Todo status union from the shared types. -/
inductive TodoStatus where
  | todo | in_progress | done | blocked
deriving DecidableEq, Repr

/-- Todo priority union from the shared types. -/
inductive Priority where
  | low | medium | high | critical
deriving DecidableEq, Repr

/-- Origin tag of a todo from the shared types (optional field). -/
inductive TodoSource where
  | manual | suggested
deriving DecidableEq, Repr

/-- Todo record from the shared types; the source field is optional there
(absent in records written by the older store). -/
structure Todo where
  id : String
  text : String
  status : TodoStatus
  branch : Option String
  priority : Priority
  created : String
  updated : String
  tags : Option (List String)
  source : Option TodoSource
deriving DecidableEq, Repr

/-- Activity entry type union from the shared types (the keyword type is
reserved in Lean, so the field is named entryType). -/
structure ActivityEntry where
  timestamp : String
  entryType : String
  message : String
  branch : String
  metadata : List (String × String)
deriving DecidableEq, Repr

/-- ProjectState record from the shared types (workingSessions omitted:
no claim touches it and no embedded function reads it). -/
structure ProjectState where
  projectName : String
  description : String
  currentFocus : String
  lastUpdated : String
  active : Bool
deriving DecidableEq, Repr

-- ════════════════════════════════════════════════════════════
-- §2 Todo store (services/state.ts): addTodo and its ID generator
-- ════════════════════════════════════════════════════════════

/-- Digit character of base 36 as produced by Number.toString(36):
0-9 then a-z. -/
def b36digit (n : Nat) : Char :=
  if n < 10 then Char.ofNat (48 + n) else Char.ofNat (87 + n)

/-- Base-36 digit list accumulator; fuel is an upper bound on the number
of digits, so the recursion is structural. -/
def toBase36Aux : Nat → Nat → List Char → List Char
  | 0, _, acc => acc
  | _ + 1, 0, acc => acc
  | fuel + 1, n, acc => toBase36Aux fuel (n / 36) (b36digit (n % 36) :: acc)

/-- Base-36 rendering of a natural number, the behaviour of
Date.now().toString(36) on the (nonnegative integral) clock value. -/
def toBase36 (n : Nat) : String :=
  if n = 0 then "0" else ⟨toBase36Aux n n []⟩

/-- Todo ID generated by addTodo: the string todo_ followed by the
current clock milliseconds rendered in base 36 — nothing else feeds the
ID. -/
def addTodoId (nowMs : Nat) : String :=
  "todo_" ++ toBase36 nowMs

/-- addTodo from the store: builds the new todo from the clock and the
arguments and appends it to the list read from disk.  The clock
(Date.now in milliseconds, plus its ISO rendering) is passed explicitly. -/
def addTodo (nowMs : Nat) (nowIso : String) (todos : List Todo)
    (text : String) (priority : Priority) (branch : Option String)
    (tags : Option (List String)) : List Todo × Todo :=
  let todo : Todo :=
    { id := addTodoId nowMs
      text := text
      status := .todo
      branch := branch
      priority := priority
      created := nowIso
      updated := nowIso
      tags := tags
      source := none }
  (todos ++ [todo], todo)

/-- Sequential run of addTodo calls in one process: each call observes the
clock value listed for it and the todo list left by the previous call. -/
def runAddTodos : List (Nat × String) → List Todo → List Todo
  | [], todos => todos
  | (t, txt) :: rest, todos =>
      runAddTodos rest (addTodo t "2026-02-15T00:00:00.000Z" todos txt .medium none none).1

-- ════════════════════════════════════════════════════════════
-- §3 Corrupt-tolerant readers (services/state.ts)
-- ════════════════════════════════════════════════════════════

/-- Last path segment with the unknown fallback, the effect of
repoRoot.split on slash followed by pop with the or-default. -/
def lastSegAux : List Char → List Char → List Char
  | [], cur => cur
  | c :: rest, cur =>
    if c = '/' then lastSegAux rest [] else lastSegAux rest (cur ++ [c])

/-- Project name derived from the repository root path. -/
def projectNameOf (repoRoot : String) : String :=
  let seg := lastSegAux repoRoot.data []
  if seg.isEmpty then "unknown" else ⟨seg⟩

/-- Default project state written by getProjectState when the state file
is missing or corrupt. -/
def defaultProjectState (repoRoot nowIso : String) : ProjectState :=
  { projectName := projectNameOf repoRoot
    description := ""
    currentFocus := ""
    lastUpdated := nowIso
    active := true }

/-- getProjectState: the on-disk state file is modelled as an optional raw
string (none when the file does not exist) and JSON.parse as an explicit
partial parse function, so the try/catch fallback is the none branch. -/
def getProjectState (parseState : String → Option ProjectState)
    (repoRoot nowIso : String) (stateFile : Option String) : ProjectState :=
  match stateFile with
  | some raw =>
    match parseState raw with
    | some st => st
    | none => defaultProjectState repoRoot nowIso
  | none => defaultProjectState repoRoot nowIso

/-- getTodos: missing file yields the empty list, a corrupt file (parse
failure inside the try/catch) yields the empty list, and the optional
branch and status filters are applied to a successfully parsed list. -/
def getTodos (parseTodos : String → Option (List Todo))
    (todosFile : Option String) (branch : Option String)
    (status : Option TodoStatus) : List Todo :=
  match todosFile with
  | none => []
  | some raw =>
    match parseTodos raw with
    | none => []
    | some ts =>
      let ts1 := match branch with
        | some b => ts.filter (fun t => t.branch = none || t.branch = some b)
        | none => ts
      match status with
      | some st => ts1.filter (fun t => t.status = st)
      | none => ts1

-- ════════════════════════════════════════════════════════════
-- §4 Branch-notes filenames (services/state.ts)
-- ════════════════════════════════════════════════════════════

/-- Global replacement of each slash by a double underscore (the encoding
regex in branchFileName applied with the global flag: leftmost match,
scanning resumes after the replacement, which is never rescanned). -/
def encodeSlashes : List Char → List Char
  | [] => []
  | c :: rest => if c = '/' then '_' :: '_' :: encodeSlashes rest else c :: encodeSlashes rest

/-- Global replacement of each double underscore by a slash (the decoding
regex in listBranchNotes with the global flag: leftmost match,
non-overlapping, scanning resumes after the replaced occurrence). -/
def decodeUnderscores : List Char → List Char
  | [] => []
  | [c] => [c]
  | c1 :: c2 :: rest =>
    if c1 = '_' && c2 = '_' then '/' :: decodeUnderscores rest
    else c1 :: decodeUnderscores (c2 :: rest)

/-- branchFileName: every slash becomes a double underscore, then the md
extension is appended. -/
def branchFileName (branch : String) : String :=
  ⟨encodeSlashes branch.data ++ ".md".data⟩

/-- Strip one trailing md extension (the anchored replace in
listBranchNotes). -/
def stripMdSuffix (t : List Char) : List Char :=
  if ".md".data.isSuffixOf t then t.take (t.length - 3) else t

/-- Decoding applied by listBranchNotes to each directory entry: every
double underscore becomes a slash (applied to the whole filename,
extension included), then the extension is stripped. -/
def decodeBranchFile (f : String) : String :=
  ⟨stripMdSuffix (decodeUnderscores f.data)⟩

/-- listBranchNotes over a modelled directory listing: keep the md files,
decode each name. -/
def listBranchNotes (files : List String) : List String :=
  (files.filter (fun f => ".md".data.isSuffixOf f.data)).map decodeBranchFile

-- ════════════════════════════════════════════════════════════
-- §5 Passive capture hooks (services/hooks.ts)
-- ════════════════════════════════════════════════════════════

/-- Marker opening every devctx hook section. -/
def HOOK_START_MARKER : String := "# --- devctx hook start ---"

/-- Marker closing every devctx hook section. -/
def HOOK_END_MARKER : String := "# --- devctx hook end ---"

/-- Post-commit hook script exactly as generated (template literal with the
markers interpolated); literal braces are written with hexadecimal escapes. -/
def postCommitHookLines : List String :=
    [ ""
    , HOOK_START_MARKER
    , "# Log commits to .devctx/activity.log"
    , "("
    , "  set +e"
    , "  REPO_ROOT=\"$(git rev-parse --show-toplevel 2>/dev/null)\" || exit 0"
    , "  DEVCTX_DIR=\"$REPO_ROOT/.devctx\""
    , "  [ -d \"$DEVCTX_DIR\" ] || exit 0"
    , ""
    , "  BRANCH=\"$(git rev-parse --abbrev-ref HEAD 2>/dev/null)\" || BRANCH=\"unknown\""
    , "  HASH=\"$(git rev-parse HEAD 2>/dev/null)\" || HASH=\"\""
    , "  SHORT_HASH=\"$(git rev-parse --short HEAD 2>/dev/null)\" || SHORT_HASH=\"\""
    , "  SUBJECT=\"$(git log -1 --format=%s 2>/dev/null)\" || SUBJECT=\"\""
    , "  AUTHOR=\"$(git log -1 --format=%an 2>/dev/null)\" || AUTHOR=\"\""
    , "  TIMESTAMP=\"$(date -u +%Y-%m-%dT%H:%M:%S.000Z 2>/dev/null)\" || TIMESTAMP=\"$(date -u +%Y-%m-%dT%H:%M:%SZ)\""
    , ""
    , "  # Escape double quotes in subject"
    , "  SUBJECT=\"$(printf '%s' \"$SUBJECT\" | sed 's/\"/\\\\\"/g')\""
    , "  AUTHOR=\"$(printf '%s' \"$AUTHOR\" | sed 's/\"/\\\\\"/g')\""
    , ""
    , "  printf '\x7b\"timestamp\":\"%s\",\"type\":\"commit\",\"message\":\"%s\",\"branch\":\"%s\",\"metadata\":\x7b\"hash\":\"%s\",\"short_hash\":\"%s\",\"author\":\"%s\",\"source\":\"hook\"\x7d\x7d\\n' \\"
    , "    \"$TIMESTAMP\" \"$SUBJECT\" \"$BRANCH\" \"$HASH\" \"$SHORT_HASH\" \"$AUTHOR\" \\"
    , "    >> \"$DEVCTX_DIR/activity.log\" 2>/dev/null"
    , ") || true"
    , HOOK_END_MARKER ]

/-- Script string for the PostCommit hook: its lines joined by newlines. -/
def generatePostCommitHook : String :=
  joinLines postCommitHookLines

/-- Post-checkout hook script exactly as generated. -/
def postCheckoutHookLines : List String :=
    [ ""
    , HOOK_START_MARKER
    , "# Log branch switches to .devctx/activity.log"
    , "("
    , "  set +e"
    , "  # Only fire on branch checkout (3rd arg = 1), not file checkout (0)"
    , "  [ \"$3\" = \"1\" ] || exit 0"
    , ""
    , "  REPO_ROOT=\"$(git rev-parse --show-toplevel 2>/dev/null)\" || exit 0"
    , "  DEVCTX_DIR=\"$REPO_ROOT/.devctx\""
    , "  [ -d \"$DEVCTX_DIR\" ] || exit 0"
    , ""
    , "  NEW_BRANCH=\"$(git rev-parse --abbrev-ref HEAD 2>/dev/null)\" || NEW_BRANCH=\"unknown\""
    , "  # Resolve old branch from the previous HEAD ref"
    , "  OLD_BRANCH=\"$(git name-rev --name-only \"$1\" 2>/dev/null)\" || OLD_BRANCH=\"unknown\""
    , "  TIMESTAMP=\"$(date -u +%Y-%m-%dT%H:%M:%S.000Z 2>/dev/null)\" || TIMESTAMP=\"$(date -u +%Y-%m-%dT%H:%M:%SZ)\""
    , ""
    , "  printf '\x7b\"timestamp\":\"%s\",\"type\":\"branch_switch\",\"message\":\"Switched from %s to %s\",\"branch\":\"%s\",\"metadata\":\x7b\"from_branch\":\"%s\",\"to_branch\":\"%s\",\"source\":\"hook\"\x7d\x7d\\n' \\"
    , "    \"$TIMESTAMP\" \"$OLD_BRANCH\" \"$NEW_BRANCH\" \"$NEW_BRANCH\" \"$OLD_BRANCH\" \"$NEW_BRANCH\" \\"
    , "    >> \"$DEVCTX_DIR/activity.log\" 2>/dev/null"
    , ") || true"
    , HOOK_END_MARKER ]

/-- Script string for the PostCheckout hook: its lines joined by newlines. -/
def generatePostCheckoutHook : String :=
  joinLines postCheckoutHookLines

/-- Post-merge hook script exactly as generated. -/
def postMergeHookLines : List String :=
    [ ""
    , HOOK_START_MARKER
    , "# Log merges to .devctx/activity.log"
    , "("
    , "  set +e"
    , "  REPO_ROOT=\"$(git rev-parse --show-toplevel 2>/dev/null)\" || exit 0"
    , "  DEVCTX_DIR=\"$REPO_ROOT/.devctx\""
    , "  [ -d \"$DEVCTX_DIR\" ] || exit 0"
    , ""
    , "  BRANCH=\"$(git rev-parse --abbrev-ref HEAD 2>/dev/null)\" || BRANCH=\"unknown\""
    , "  SQUASH=\"false\""
    , "  [ \"$1\" = \"1\" ] && SQUASH=\"true\""
    , "  TIMESTAMP=\"$(date -u +%Y-%m-%dT%H:%M:%S.000Z 2>/dev/null)\" || TIMESTAMP=\"$(date -u +%Y-%m-%dT%H:%M:%SZ)\""
    , ""
    , "  printf '\x7b\"timestamp\":\"%s\",\"type\":\"merge\",\"message\":\"Merged into %s\",\"branch\":\"%s\",\"metadata\":\x7b\"squash\":\"%s\",\"source\":\"hook\"\x7d\x7d\\n' \\"
    , "    \"$TIMESTAMP\" \"$BRANCH\" \"$BRANCH\" \"$SQUASH\" \\"
    , "    >> \"$DEVCTX_DIR/activity.log\" 2>/dev/null"
    , ") || true"
    , HOOK_END_MARKER ]

/-- Script string for the PostMerge hook: its lines joined by newlines. -/
def generatePostMergeHook : String :=
  joinLines postMergeHookLines

/-- Pre-push hook script exactly as generated. -/
def prePushHookLines : List String :=
    [ ""
    , HOOK_START_MARKER
    , "# Log pushes to .devctx/activity.log"
    , "("
    , "  set +e"
    , "  REPO_ROOT=\"$(git rev-parse --show-toplevel 2>/dev/null)\" || exit 0"
    , "  DEVCTX_DIR=\"$REPO_ROOT/.devctx\""
    , "  [ -d \"$DEVCTX_DIR\" ] || exit 0"
    , ""
    , "  BRANCH=\"$(git rev-parse --abbrev-ref HEAD 2>/dev/null)\" || BRANCH=\"unknown\""
    , "  REMOTE=\"$1\""
    , "  TIMESTAMP=\"$(date -u +%Y-%m-%dT%H:%M:%S.000Z 2>/dev/null)\" || TIMESTAMP=\"$(date -u +%Y-%m-%dT%H:%M:%SZ)\""
    , ""
    , "  printf '\x7b\"timestamp\":\"%s\",\"type\":\"push\",\"message\":\"Pushing %s to %s\",\"branch\":\"%s\",\"metadata\":\x7b\"remote\":\"%s\",\"source\":\"hook\"\x7d\x7d\\n' \\"
    , "    \"$TIMESTAMP\" \"$BRANCH\" \"$REMOTE\" \"$BRANCH\" \"$REMOTE\" \\"
    , "    >> \"$DEVCTX_DIR/activity.log\" 2>/dev/null"
    , ") || true"
    , HOOK_END_MARKER ]

/-- Script string for the PrePush hook: its lines joined by newlines. -/
def generatePrePushHook : String :=
  joinLines prePushHookLines

/-- Environment handed to every explicitly-logged git operation by
execGitOp: the inherited process environment with the skip signal bound
to 1 (object spread overriding any inherited binding). -/
def execGitOpEnv (processEnv : String → Option String) : String → Option String :=
  fun k => if k = "DEVCTX_SKIP_HOOKS" then some "1" else processEnv k

-- ════════════════════════════════════════════════════════════
-- §6 Marker-bounded document sync (services/state.ts updateClaudeMd and
-- services/hooks.ts installHooks share this replace-or-append shape)
-- ════════════════════════════════════════════════════════════

/-- Defaulted first-occurrence index; only read behind a containment
guard, mirroring indexOf after an includes check. -/
def firstIdxD (m s : List Char) : Nat :=
  (firstIdx m s).getD 0

/-- Region replacement used when both markers are present: everything
before the first start marker, then the new section, then everything
after the end of the first end marker. -/
def replaceMarkedRegion (startM endM c doc : List Char) : List Char :=
  doc.take (firstIdxD startM doc) ++ c ++ doc.drop (firstIdxD endM doc + endM.length)

/-- Marker-bounded sync primitive: replace the region wholesale when both
markers are present, otherwise append the section after the trimmed
document, glued with sep and followed by tail.  updateClaudeMd uses
sep two newlines and tail one newline; the hook installer uses one
newline for both. -/
def syncMarked (startM endM sep tail c doc : List Char) : List Char :=
  if containsSub startM doc && containsSub endM doc then
    replaceMarkedRegion startM endM c doc
  else
    trimEnd doc ++ sep ++ c ++ tail

/-- Start marker of the synced CLAUDE.md section. -/
def CLAUDE_START_MARKER : String := "<!-- DEVCTX:START -->"

/-- End marker of the synced CLAUDE.md section. -/
def CLAUDE_END_MARKER : String := "<!-- DEVCTX:END -->"

/-- updateClaudeMd on an in-memory document: replace or append the devctx
section (the section string is the one built by builddevctxSection). -/
def updateClaudeMd (doc sect : String) : String :=
  ⟨syncMarked CLAUDE_START_MARKER.data CLAUDE_END_MARKER.data
    "\n\n".data "\n".data sect.data doc.data⟩

/-- Hook-file install step for one hook: replace the devctx section when
both markers are present, append to an existing foreign hook otherwise,
create a fresh shebang file when the hook does not exist. -/
def installHookFile (existing : Option String) (hookContent : String) : String :=
  match existing with
  | some ex =>
    ⟨syncMarked HOOK_START_MARKER.data HOOK_END_MARKER.data
      "\n".data "\n".data hookContent.data ex.data⟩
  | none => "#!/bin/sh\n" ++ hookContent ++ "\n"

-- ════════════════════════════════════════════════════════════
-- §7 Similarity deduplicator (spec-modelled)
-- ════════════════════════════════════════════════════════════

/-- Modelled from the spec: the implementation of the similarity
deduplicator (normalizeForComparison and isSimilarToAny of
src/shared/data.ts) is not under src — only its unit tests and its
callers are.  This fixed stop-word set follows the spec's "fixed
stop-word set" and is pinned by the tests: add, the, for and new are stop
words; fix, src, utils, tests and feature are not. -/
def stopWords : List (List Char) :=
  ["a", "an", "and", "at", "add", "for", "in", "is", "of", "on", "or",
   "the", "to", "with", "new"].map String.data

/-- Membership in the fixed stop-word set. -/
def isStop (t : List Char) : Bool :=
  stopWords.contains t

/-- Modelled from the spec: the suffix list of the pseudo-stemmer.  The
spec names -ing, -ed, -ation and -ment; the tests additionally pin -s
(utils to util, tests to test) and -e (feature to featur), and pin the
chaining order ation before ment (documentation to document to docu). -/
def suffixList : List (List Char) :=
  ["ation", "ment", "ing", "ed", "s", "e"].map String.data

/-- Strip one suffix occurrence if the token ends with it (one anchored
replace). -/
def stripOneSuffix (t suf : List Char) : List Char :=
  if suf.isSuffixOf t then t.take (t.length - suf.length) else t

/-- Modelled from the spec: pseudo-stemming as chained independent
replacements, each applied once in order (the spec's design notes call
the repeated stripping an artifact of chained replacements). -/
def pseudoStem (t : List Char) : List Char :=
  suffixList.foldl stripOneSuffix t

/-- Split into maximal runs of alphanumeric characters, dropping the
separators (the spec's split on non-alphanumeric boundaries, including
path separators). -/
def splitAlnum : List Char → List (List Char)
  | [] => []
  | c :: rest =>
    if isAlnum c then
      if rest.head?.any isAlnum then
        match splitAlnum rest with
        | [] => [[c]]
        | t :: ts => (c :: t) :: ts
      else [c] :: splitAlnum rest
    else splitAlnum rest

/-- Join tokens with single spaces (the canonical signature string). -/
def joinSpace : List (List Char) → List Char
  | [] => []
  | [t] => t
  | t :: t2 :: ts => t ++ ' ' :: joinSpace (t2 :: ts)

/-- Lexicographic comparison on character code points, the default
JavaScript array sort order for strings. -/
def ltTok : List Char → List Char → Bool
  | [], [] => false
  | [], _ :: _ => true
  | _ :: _, [] => false
  | a :: as, b :: bs =>
    if a.toNat < b.toNat then true
    else if b.toNat < a.toNat then false
    else ltTok as bs

/-- Ordered duplicate-free insertion. -/
def insertTok (t : List Char) : List (List Char) → List (List Char)
  | [] => [t]
  | u :: us =>
    if ltTok t u then t :: u :: us
    else if t == u then u :: us
    else u :: insertTok t us

/-- Deduplicate and sort the token list into its canonical order. -/
def dedupSort (ts : List (List Char)) : List (List Char) :=
  ts.foldr insertTok []

/-- Modelled from the spec: normalize — lowercase, split on
non-alphanumeric boundaries, drop the stop-word set, pseudo-stem each
token, dedupe and sort (this order of steps is the spec's own). -/
def normalizeTokens (s : List Char) : List (List Char) :=
  dedupSort (((splitAlnum (s.map lowerCh)).filter (fun t => !isStop t)).map pseudoStem)

/-- Canonical signature string of a text. -/
def normalizeForComparison (s : String) : String :=
  ⟨joinSpace (normalizeTokens s.data)⟩

/-- Modelled from the spec: isSimilarToAny normalizes the candidate and
declares similarity when the token overlap with some existing signature
reaches the fixed threshold of half the smaller token set (tuned so that
paraphrases sharing content words match and unrelated text does not);
the empty signature list yields false. -/
def isSimilarToAny (text : String) (signatures : List String) : Bool :=
  signatures.any fun sig =>
    let a := normalizeTokens text.data
    let b := splitAlnum sig.data
    2 * (a.filter (fun t => b.contains t)).length ≥ min a.length b.length

-- ════════════════════════════════════════════════════════════
-- §8 Goodbye suggestion filtering and insertion
-- ════════════════════════════════════════════════════════════

/-- Signatures of the existing active (not done) todos: the spec's-words
comparison base for the claimed suggestion filtering (used only to state
what "similar to an existing active todo" means; the goodbye handler
itself performs no such comparison). -/
def activeTodoSignatures (todos : List Todo) : List String :=
  (todos.filter (fun t => t.status ≠ .done)).map (fun t => normalizeForComparison t.text)

/-- Modelled from the spec: addTodo of the current store additionally
takes the source tag (the callers pass "suggested" and the shared types
declare the field; the store file carrying the parameter is not under
src).  Identical to addTodo except for the stored source. -/
def addTodoWithSource (nowMs : Nat) (nowIso : String) (todos : List Todo)
    (text : String) (priority : Priority) (branch : Option String)
    (tags : Option (List String)) (source : TodoSource) : List Todo × Todo :=
  let todo : Todo :=
    { id := addTodoId nowMs
      text := text
      status := .todo
      branch := branch
      priority := priority
      created := nowIso
      updated := nowIso
      tags := tags
      source := some source }
  (todos ++ [todo], todo)

/-- Goodbye insertion loop of the handler: for each of the collaborator's
suggested items, one addTodo call with source suggested on the current
branch.  The loop runs over every suggestion — the handler performs no
similarity comparison against existing todos before inserting. -/
def insertSuggestedTodos (nowMs : Nat) (nowIso : String) (branch : String)
    (todos : List Todo) (suggestions : List (String × Priority)) : List Todo :=
  suggestions.foldl
    (fun acc s => (addTodoWithSource nowMs nowIso acc s.1 s.2 (some branch) none .suggested).1)
    todos

-- ════════════════════════════════════════════════════════════
-- §9 Per-repository disk state and store operations used by the
-- session lifecycle (services/state.ts, read at the parsed level)
-- ════════════════════════════════════════════════════════════

/-- On-disk .devctx contents at the parsed level: the state document
(none when state.json does not exist), the todo list, the activity
ledger, the session records and the synced CLAUDE.md.  Corruption
tolerance of the raw readers is treated separately (section 3). -/
structure Disk where
  stateFile : Option ProjectState
  todos : List Todo
  activity : List ActivityEntry
  sessions : List String
  claudeMd : String
deriving Repr

/-- isDevctxInitialized: the state document exists. -/
def isDevctxInitialized (d : Disk) : Bool :=
  d.stateFile.isSome

/-- getProjectState at the parsed level: the stored state, or the lazily
created default. -/
def getProjectStateD (root nowIso : String) (d : Disk) : ProjectState :=
  d.stateFile.getD (defaultProjectState root nowIso)

/-- isDevctxActive: the active flag of the (possibly defaulted) state;
the default is active. -/
def isDevctxActive (root nowIso : String) (d : Disk) : Bool :=
  (getProjectStateD root nowIso d).active

/-- setDevctxActive: store the state with the new active flag;
saveProjectState stamps lastUpdated. -/
def setDevctxActive (root nowIso : String) (d : Disk) (active : Bool) : Disk :=
  { d with stateFile := some { getProjectStateD root nowIso d with
      active := active, lastUpdated := nowIso } }

/-- logActivity: stamp the entry with the current time and append one
line to the ledger. -/
def logActivity (nowIso : String) (d : Disk) (entryType message branch : String)
    (metadata : List (String × String)) : Disk :=
  { d with activity := d.activity ++
      [{ timestamp := nowIso, entryType := entryType, message := message,
         branch := branch, metadata := metadata }] }

-- ════════════════════════════════════════════════════════════
-- §10 Auto-session-start (src/index.ts)
-- ════════════════════════════════════════════════════════════

/-- Per-process mutable module state of the MCP server: the
fired-once flag and the stashed one-time greeting. -/
structure McpProcess where
  sessionStarted : Bool
  pendingGreeting : Option String
deriving Repr

/-- Greeting built on the session-start transition (focus, branch,
resume notice, pending suggested-todo count, goodbye reminder). -/
def buildGreeting (state : ProjectState) (branch : String) (wasResumed : Bool)
    (todos : List Todo) : String :=
  let l1 := ["**devctx is tracking this project.**"]
  let l2 := if state.currentFocus ≠ "" then ["Focus: " ++ state.currentFocus] else []
  let l3 := ["Branch: `" ++ branch ++ "`"]
  let l4 := if wasResumed then ["Tracking resumed from last session."] else []
  let suggested := todos.filter (fun t => t.source = some .suggested && t.status = .todo)
  let l5 := if suggested.length > 0 then
      [toString suggested.length ++
        " suggested todo(s) from last session — run `devctx_todo_list` to review."]
    else []
  let l6 := ["Use `/devctx-goodbye` when you're done to save session context."]
  joinLines (l1 ++ l2 ++ l3 ++ l4 ++ l5 ++ l6)

/-- autoSessionStart: on the first invocation in the process (and only
when the repository is initialized) auto-resume a paused project, append
one session_start entry, flip the per-process flag and stash the
greeting; on every other invocation do nothing. -/
def autoSessionStart (root branch nowIso : String) (p : McpProcess) (d : Disk) :
    McpProcess × Disk :=
  if p.sessionStarted || !isDevctxInitialized d then (p, d)
  else
    let wasResumed := !isDevctxActive root nowIso d
    let d1 := if wasResumed then setDevctxActive root nowIso d true else d
    let d2 := logActivity nowIso d1 "session_start" "Session started" branch []
    let state := getProjectStateD root nowIso d2
    ({ sessionStarted := true
       pendingGreeting := some (buildGreeting state branch wasResumed d2.todos) }, d2)

-- ════════════════════════════════════════════════════════════
-- §11 Goodbye workflow (src/index.ts handler, services/narrative.ts)
-- ════════════════════════════════════════════════════════════

/-- Git status record from services/git.ts. -/
structure GitStatus where
  branch : String
  isClean : Bool
  staged : List String
  modified : List String
  untracked : List String
  ahead : Nat
  behind : Nat
deriving Repr

/-- Git commit record from services/git.ts. -/
structure GitCommit where
  hash : String
  shortHash : String
  subject : String
  author : String
  date : String
  branch : String
deriving Repr

/-- Collaborator result: prose plus suggested items. -/
structure GoodbyeResult where
  narrative : String
  todos : List (String × Priority)
deriving Repr

/-- Context fields read by the deterministic fallback. -/
structure GoodbyeCtx where
  status : GitStatus
  recentCommits : List GitCommit
  commitCount : Nat
  userMessage : Option String
  todos : List Todo
deriving Repr

/-- generateFallbackGoodbye: the deterministic offline wrap-up used when
no API key is configured or the collaborator call fails. -/
def generateFallbackGoodbye (ctx : GoodbyeCtx) : GoodbyeResult :=
  let happened :=
    if ctx.recentCommits.length > 0 then
      ["You made " ++ toString ctx.commitCount ++ " commit(s) on `"
          ++ ctx.status.branch ++ "`."]
        ++ (ctx.recentCommits.take 5).map
            (fun c => "- `" ++ c.shortHash ++ "` " ++ c.subject)
    else ["No commits were made this session."]
  let note := match ctx.userMessage with
    | some m => ["\nYour note: \"" ++ m ++ "\""]
    | none => []
  let unfinished :=
    if !ctx.status.isClean then
      (if ctx.status.modified.length > 0 then
          ["- " ++ toString ctx.status.modified.length ++ " modified file(s) not yet committed"]
        else [])
      ++ (if ctx.status.untracked.length > 0 then
          ["- " ++ toString ctx.status.untracked.length ++ " untracked file(s)"]
        else [])
      ++ (if ctx.status.staged.length > 0 then
          ["- " ++ toString ctx.status.staged.length ++ " staged file(s) ready to commit"]
        else [])
    else ["Working tree is clean."]
  let aheadLines :=
    if ctx.status.ahead > 0 then
      ["- " ++ toString ctx.status.ahead ++ " commit(s) ahead of remote — not yet pushed"]
    else []
  let pushTodo :=
    if ctx.status.ahead > 0 then
      [("Push " ++ ctx.status.branch ++ " to remote", Priority.medium)]
    else []
  let stepPush :=
    if ctx.status.ahead > 0 then
      ["- Push `" ++ ctx.status.branch ++ "` to remote ("
          ++ toString ctx.status.ahead ++ " commits ahead)"]
    else []
  let stepCommit := if !ctx.status.isClean then ["- Review and commit uncommitted changes"] else []
  let commitTodo :=
    if !ctx.status.isClean then [("Review and commit uncommitted changes", Priority.medium)]
    else []
  let activeTodos := ctx.todos.filter (fun t => t.status ≠ .done && t.status ≠ .blocked)
  let continueLines :=
    if activeTodos.length > 0 then
      ["- Continue working on existing todos:"]
        ++ (activeTodos.take 3).map (fun t => "  - " ++ t.text)
    else []
  { narrative := joinLines
      (["## What happened"] ++ happened ++ note ++ [""]
        ++ ["## Unfinished work"] ++ unfinished ++ aheadLines ++ [""]
        ++ ["## Suggested next steps"] ++ stepPush ++ stepCommit ++ continueLines
        ++ ["", "*ℹ️ Set ANTHROPIC_API_KEY for AI-generated session summaries.*"])
    todos := pushTodo ++ commitTodo }

/-- generateGoodbyeSummary with the external narrative collaborator
modelled as an optional parsed result: some r is a successful, parsed
response; none covers a missing key, an error or a timeout — every such
path falls back to the deterministic generator inside its own catch, so
no failure escapes. -/
def generateGoodbyeSummary (collab : Option GoodbyeResult) (ctx : GoodbyeCtx) :
    GoodbyeResult :=
  match collab with
  | some r => r
  | none => generateFallbackGoodbye ctx

/-- Priority rank used to order the synced todo list. -/
def priorityOrder : Priority → Nat
  | .critical => 0
  | .high => 1
  | .medium => 2
  | .low => 3

/-- Stable insertion by priority rank (the stable array sort of the
section builder). -/
def insertByPriority (t : Todo) : List Todo → List Todo
  | [] => [t]
  | u :: us =>
    if priorityOrder t.priority < priorityOrder u.priority then t :: u :: us
    else u :: insertByPriority t us

/-- Stable sort of the active todos by priority rank. -/
def sortByPriority : List Todo → List Todo
  | [] => []
  | t :: ts => insertByPriority t (sortByPriority ts)

/-- Status icon of a synced todo line. -/
def statusIcon (s : TodoStatus) : String :=
  match s with
  | .in_progress => "🔄"
  | .blocked => "🚫"
  | _ => "⬜"

/-- Priority icon of a synced todo line. -/
def priorityIcon (p : Priority) : String :=
  match p with
  | .critical => "🔴"
  | .high => "🟠"
  | .medium => "🟡"
  | .low => "🟢"

/-- builddevctxSection: the replacement text of the marker-bounded
CLAUDE.md region (lastUpdatedDisplay stands for the locale rendering of
the timestamp, which is produced by the host date library). -/
def builddevctxSection (branch : String) (state : ProjectState)
    (activeTodos : List Todo) (lastUpdatedDisplay : String) : String :=
  let intro := [CLAUDE_START_MARKER, "## 🔍 Project Context (auto-updated by devctx)", ""]
  let focus := if state.currentFocus ≠ "" then
      ["**Current Focus:** " ++ state.currentFocus, ""] else []
  let desc := if state.description ≠ "" then
      ["**Project:** " ++ state.description, ""] else []
  let core := ["**Branch:** `" ++ branch ++ "`",
               "**Last Updated:** " ++ lastUpdatedDisplay, ""]
  let todoLines :=
    if activeTodos.length > 0 then
      ["### Active Todos"]
        ++ (sortByPriority activeTodos).map (fun t =>
            "- " ++ statusIcon t.status ++ " " ++ priorityIcon t.priority ++ " " ++ t.text
              ++ (match t.branch with
                  | some b => " (`" ++ b ++ "`)"
                  | none => ""))
        ++ [""]
    else []
  joinLines (intro ++ focus ++ desc ++ core ++ todoLines ++ [CLAUDE_END_MARKER])

/-- Session record document written to the sessions directory (the date
and duration renderings are passed in, produced by the host date
library). -/
def sessionRecordDoc (dateDisplay : String) (statusBranch : String)
    (sessionDuration : Option String) (commitCount : Nat)
    (userMessage : Option String) (narrative : String)
    (suggestedTodos : List (String × Priority)) : String :=
  joinLines
    (["# Session: " ++ dateDisplay, "**Branch:** " ++ statusBranch]
      ++ (match sessionDuration with
          | some dur => ["**Duration:** " ++ dur]
          | none => [])
      ++ ["**Commits:** " ++ toString commitCount]
      ++ (match userMessage with
          | some m => ["\n> " ++ m]
          | none => [])
      ++ ["", "---", "", narrative, "", "---", "", "## Auto-generated todos"]
      ++ (if suggestedTodos.length > 0 then
            suggestedTodos.map (fun t => "- [" ++ priorityIcon t.2 ++ "] " ++ t.1)
          else ["(none)"])
      ++ [""])

/-- Tool response as returned to the MCP client. -/
structure ToolResponse where
  text : String
  isError : Bool
deriving Repr

/-- devctxGoodbye handler: guards, context gathering (passed in for the
external git facts), collaborator call with deterministic fallback,
session-record write, per-suggestion todo insertion (unconditional, as
in the handler's loop), session_end logging, pausing, and CLAUDE.md
re-render.  The collaborator argument none is the failure/timeout/no-key
path. -/
def devctxGoodbye (collab : Option GoodbyeResult) (root nowIso dateDisplay
      lastUpdatedDisplay : String) (clockMs : Nat) (status : GitStatus)
    (recentCommits : List GitCommit) (sessionDuration : Option String)
    (userMessage : Option String) (d : Disk) : Disk × ToolResponse :=
  if !isDevctxActive root nowIso d then
    (d, { text := "⏸️ devctx is paused for this project. Use `devctx_start` to resume tracking."
          isError := false })
  else if !isDevctxInitialized d then
    (d, { text := "⚠️ devctx is not initialized for this project. Use `devctx_init` first."
          isError := true })
  else
    let todos := d.todos
    let commitCount := recentCommits.length
    let ctx : GoodbyeCtx :=
      { status := status, recentCommits := recentCommits, commitCount := commitCount,
        userMessage := userMessage, todos := todos }
    let result := generateGoodbyeSummary collab ctx
    let record := sessionRecordDoc dateDisplay status.branch sessionDuration
      commitCount userMessage result.narrative result.todos
    let d1 : Disk := { d with sessions := d.sessions ++ [record] }
    let d2 : Disk := { d1 with
      todos := insertSuggestedTodos clockMs nowIso status.branch d1.todos result.todos }
    let d3 := logActivity nowIso d2 "session_end"
      "Session ended — goodbye summary saved" status.branch []
    let d4 := setDevctxActive root nowIso d3 false
    let updatedState := getProjectStateD root nowIso d4
    let updatedActive := d4.todos.filter (fun t => t.status ≠ .done)
    let sect := builddevctxSection status.branch updatedState updatedActive lastUpdatedDisplay
    let d5 : Disk := { d4 with claudeMd := updateClaudeMd d4.claudeMd sect }
    let okText := joinLines
      ["👋 **Session saved.**",
       toString commitCount ++ " commit(s). " ++ toString result.todos.length
         ++ " suggested todo(s) added.",
       "", "Tracking paused. See you next time!"]
    (d5, { text := okText, isError := false })

-- ════════════════════════════════════════════════════════════
-- §12 Source annotation scanner (services/scanner.ts)
-- ════════════════════════════════════════════════════════════

/-- Source annotation record (shared types). -/
structure SourceTodo where
  file : String
  line : Nat
  tag : String
  text : String
deriving DecidableEq, Repr

/-- Modelled filesystem tree walked by the scanner: named files carrying
their lines, and named directories. -/
inductive FSTree where
  | file (name : String) (lines : List String)
  | dir (name : String) (entries : List FSTree)
deriving Repr

/-- Allow-listed source extensions. -/
def SOURCE_EXTENSIONS : List String :=
  [".ts", ".tsx", ".js", ".jsx", ".py", ".rs", ".go", ".java", ".kt",
   ".c", ".cpp", ".h", ".hpp", ".cs", ".rb", ".sh",
   ".yaml", ".yml", ".toml", ".md", ".html", ".css", ".scss",
   ".svelte", ".vue", ".swift", ".zig"]

/-- Skipped build/dependency directory names. -/
def SKIP_DIRS : List String :=
  ["node_modules", "__pycache__", "dist", "build", "target", ".devctx",
   ".git", "vendor", ".next", ".nuxt", "coverage", ".turbo"]

/-- Walk depth ceiling. -/
def MAX_DEPTH : Nat := 5

/-- File count ceiling. -/
def MAX_FILES : Nat := 500

/-- Per-file line count ceiling. -/
def MAX_LINES_PER_FILE : Nat := 10000

/-- Suffix beginning at the last dot, if any dot occurs. -/
def extOfAux : List Char → Option (List Char)
  | [] => none
  | c :: rest =>
    match extOfAux rest with
    | some e => some e
    | none => if c = '.' then some (c :: rest) else none

/-- Extension as the scanner computes it: the substring from the last
dot (lastIndexOf of -1 makes substring return the whole name). -/
def extOf (name : String) : String :=
  match extOfAux name.data with
  | some e => ⟨e⟩
  | none => name

/-- Entry skipped by the walk: dot-entries and the fixed directory set
(checked for files and directories alike, before any stat). -/
def skipName (n : String) : Bool :=
  (match n.data with | '.' :: _ => true | _ => false) || SKIP_DIRS.contains n

mutual
/-- One entry of the walk: a file is recorded (with its path components
and content) when not skipped and its extension is allow-listed; a
directory is recursed into unless skipped, past the depth ceiling, or
the file budget is exhausted (the callee-side guard of collectFiles). -/
def collectEntry : Nat → List String → FSTree → List (List String × List String) →
    List (List String × List String)
  | _, pre, .file n lines, acc =>
      if skipName n then acc
      else if SOURCE_EXTENSIONS.contains (extOf n) then acc ++ [(pre ++ [n], lines)]
      else acc
  | depth, pre, .dir n es, acc =>
      if skipName n then acc
      else if depth + 1 > MAX_DEPTH || acc.length ≥ MAX_FILES then acc
      else collectEntries (depth + 1) (pre ++ [n]) es acc
/-- Directory loop of collectFiles: stop as soon as the file budget is
reached, otherwise fold the entries in listing order. -/
def collectEntries : Nat → List String → List FSTree → List (List String × List String) →
    List (List String × List String)
  | _, _, [], acc => acc
  | depth, pre, e :: es, acc =>
      if acc.length ≥ MAX_FILES then acc
      else collectEntries depth pre es (collectEntry depth pre e acc)
end

/-- collectFiles from the repository root. -/
def collectFiles (entries : List FSTree) : List (List String × List String) :=
  collectEntries 0 [] entries []

/-- The four recognized tags, in the pattern's alternation order. -/
def TAG_ALTS : List String := ["TODO", "FIXME", "HACK", "XXX"]

/-- The comment leaders, in the pattern's alternation order. -/
def LEADERS : List (List Char) :=
  ["//", "#", "*", "--", "/*", "<!--"].map String.data

/-- Case-insensitive prefix match (the pattern's i flag). -/
def ciPrefix : List Char → List Char → Bool
  | [], _ => true
  | _ :: _, [] => false
  | p :: ps, c :: cs => (lowerCh p = lowerCh c) && ciPrefix ps cs

/-- Colon or whitespace, the class consumed between tag and text. -/
def isColonOrWs (c : Char) : Bool :=
  c = ':' || isWs c

/-- Tag alternation with the trailing word boundary, then the greedy
colon/whitespace run; returns the normalized (uppercase) tag and the
captured remainder of the line. -/
def matchTagFrom (rest : List Char) : Option (String × List Char) :=
  TAG_ALTS.findSome? fun tag =>
    if ciPrefix tag.data rest then
      let after := rest.drop tag.data.length
      if (after.head?.map isWordChar).getD false then none
      else some (tag, after.dropWhile isColonOrWs)
    else none

/-- Attempt of the whole pattern at one position: a leader (alternatives
in order), greedy whitespace, then the tag part. -/
def matchFrom (s : List Char) : Option (String × List Char) :=
  LEADERS.findSome? fun L =>
    if L.isPrefixOf s then matchTagFrom ((s.drop L.length).dropWhile isWs)
    else none

/-- Leftmost match of the pattern in a line (positions tried left to
right, as the host regex engine does). -/
def matchTodoLine : List Char → Option (String × List Char)
  | [] => none
  | c :: rest =>
    match matchFrom (c :: rest) with
    | some r => some r
    | none => matchTodoLine rest

/-- Whether the anchored closer pattern (optional whitespace, a block or
HTML comment closer, optional whitespace, end) matches this tail. -/
def closerTailMatches (s : List Char) : Bool :=
  let s1 := s.dropWhile isWs
  (["*/", "-->"].map String.data).any fun cl =>
    cl.isPrefixOf s1 && (s1.drop cl.length).all isWs

/-- Strip the trailing closer: keep characters up to the leftmost
position where the anchored closer pattern matches. -/
def stripCloser : List Char → List Char
  | [] => []
  | c :: rest => if closerTailMatches (c :: rest) then [] else c :: stripCloser rest

/-- Scan one file's lines (up to the line ceiling): one record per
matching line, 1-indexed, with the closer stripped and the text
trimmed. -/
def scanFileLines (file : String) (lines : List String) : List SourceTodo :=
  ((lines.take MAX_LINES_PER_FILE).enum).filterMap fun p =>
    (matchTodoLine p.2.data).map fun m =>
      { file := file, line := p.1 + 1, tag := m.1, text := ⟨trimL (stripCloser m.2)⟩ }

/-- Path components joined with slashes (the repo-relative path). -/
def joinPath : List String → String
  | [] => ""
  | [c] => c
  | c :: c2 :: cs => c ++ "/" ++ joinPath (c2 :: cs)

/-- scanSourceTodos over a modelled tree: collect the files, scan each in
order. -/
def scanSourceTodos (entries : List FSTree) : List SourceTodo :=
  (collectFiles entries).flatMap fun f => scanFileLines (joinPath f.1) f.2

/-- Token in canonical form: nonempty, lowercase alphanumeric, not a
stop word and fixed under the pseudo-stemmer (the condition under which a
second normalize pass leaves a signature unchanged). -/
def canonicalToken (t : List Char) : Bool :=
  !t.isEmpty && t.all (fun c => isAlnum c && lowerCh c == c) && !isStop t && pseudoStem t == t

-- ════════════════════════════════════════════════════════════
-- §20 Theorems: generic lemmas about occurrences and substrings
-- ════════════════════════════════════════════════════════════

theorem occursAt_iff_take {m s : List Char} {k : Nat} :
    occursAt m s k ↔ (s.drop k).take m.length = m := by
  unfold occursAt
  rw [List.isPrefixOf_iff_prefix]
  constructor
  · intro h
    rcases h with ⟨t, ht⟩
    rw [← ht]
    simp
  · intro h
    rw [← h]
    exact List.take_prefix _ _

theorem firstIdx_none_iff {m : List Char} {s : List Char} :
    firstIdx m s = none ↔ ∀ k, ¬ occursAt m s k := by
  induction s with
  | nil =>
    constructor
    · intro h k hk
      unfold firstIdx at h
      by_cases hm : m.isEmpty
      · rw [if_pos hm] at h; cases h
      · unfold occursAt at hk
        rw [List.drop_nil, List.isPrefixOf_iff_prefix] at hk
        have := List.prefix_nil.mp hk
        subst this
        simp at hm
    · intro h
      unfold firstIdx
      by_cases hm : m.isEmpty
      · exfalso
        refine h 0 ?_
        unfold occursAt
        rw [List.isEmpty_iff] at hm
        subst hm
        simp [List.isPrefixOf]
      · rw [if_neg hm]
  | cons c rest ih =>
    rw [firstIdx]
    constructor
    · intro h k hk
      by_cases hp : m.isPrefixOf (c :: rest)
      · rw [if_pos hp] at h; cases h
      · rw [if_neg hp] at h
        have hnone := Option.map_eq_none'.mp h
        cases k with
        | zero => exact hp (by simpa [occursAt] using hk)
        | succ k' => exact (ih.mp hnone) k' (by simpa [occursAt] using hk)
    · intro h
      by_cases hp : m.isPrefixOf (c :: rest)
      · exfalso
        exact h 0 (by simpa [occursAt] using hp)
      · rw [if_neg hp]
        rw [Option.map_eq_none']
        refine ih.mpr ?_
        intro k hk
        exact h (k + 1) (by simpa [occursAt] using hk)

theorem containsSub_false_iff_no_occurs {m s : List Char} :
    containsSub m s = false ↔ ∀ k, ¬ occursAt m s k := by
  unfold containsSub
  rw [← firstIdx_none_iff]
  cases firstIdx m s <;> simp

theorem occursAt_getElem {m s : List Char} {k : Nat} (h : occursAt m s k)
    {i : Nat} (hi : i < m.length) : s[k + i]? = m[i]? := by
  rw [occursAt_iff_take] at h
  calc s[k + i]? = (s.drop k)[i]? := (List.getElem?_drop s k i).symm
    _ = ((s.drop k).take m.length)[i]? := (List.getElem?_take_of_lt hi).symm
    _ = m[i]? := by rw [h]

/-- An occurrence of a newline-free pattern cannot cover a newline
position. -/
theorem occursAt_no_newline {m s : List Char} {k p : Nat}
    (h : occursAt m s k) (hnl : '\n' ∉ m)
    (hp : s[p]? = some '\n') (h1 : k ≤ p) (h2 : p < k + m.length) : False := by
  have hi : p - k < m.length := by omega
  have := occursAt_getElem h hi
  rw [show k + (p - k) = p by omega] at this
  rw [hp] at this
  have : '\n' ∈ m := List.getElem?_mem this.symm
  exact hnl this

/-- Occurrence entirely inside the left part of an append is an occurrence
of that part. -/
theorem occursAt_append_left {m a b : List Char} {k : Nat}
    (hk : k + m.length ≤ a.length) :
    occursAt m (a ++ b) k ↔ occursAt m a k := by
  rw [occursAt_iff_take, occursAt_iff_take]
  have hdrop : (a ++ b).drop k = a.drop k ++ b := by
    rw [List.drop_append_of_le_length (by omega)]
  rw [hdrop]
  rw [List.take_append_of_le_length (by simp; omega)]

/-- Occurrence starting in the right part of an append. -/
theorem occursAt_append_right {m a b : List Char} {k : Nat} :
    occursAt m (a ++ b) (a.length + k) ↔ occursAt m b k := by
  unfold occursAt
  rw [show (a ++ b).drop (a.length + k) = b.drop k from by
    rw [List.drop_append_eq_append_drop]
    simp]

theorem occursAt_cons_succ {m : List Char} {c : Char} {b : List Char} {k : Nat} :
    occursAt m (c :: b) (k + 1) ↔ occursAt m b k := by
  unfold occursAt
  rfl

theorem containsSub_append_nl_false {m a b : List Char} (hm : m ≠ [])
    (hnl : '\n' ∉ m) (ha : containsSub m a = false)
    (hb : containsSub m b = false) :
    containsSub m (a ++ '\n' :: b) = false := by
  rw [containsSub_false_iff_no_occurs]
  intro k hk
  rcases Nat.lt_or_ge (k + m.length) (a.length + 1) with hlt | hge
  · have : occursAt m a k := (occursAt_append_left (by omega)).mp hk
    exact (containsSub_false_iff_no_occurs.mp ha) k this
  · rcases Nat.lt_or_ge a.length k with hk2 | hk2
    · obtain ⟨k', rfl⟩ : ∃ k', k = a.length + (k' + 1) := ⟨k - a.length - 1, by omega⟩
      have h1 : occursAt m ('\n' :: b) (k' + 1) := occursAt_append_right.mp hk
      have h2 : occursAt m b k' := occursAt_cons_succ.mp h1
      exact (containsSub_false_iff_no_occurs.mp hb) k' h2
    · have hmlen : 0 < m.length := List.length_pos.mpr hm
      have hpget : (a ++ '\n' :: b)[a.length]? = some '\n' := by
        rw [List.getElem?_append_right (Nat.le_refl _)]
        simp
      exact occursAt_no_newline hk hnl hpget hk2 (by omega)

theorem containsSub_joinNl_false {m : List Char} (hm : m ≠ [])
    (hnl : '\n' ∉ m) :
    ∀ (ls : List (List Char)), (∀ l ∈ ls, containsSub m l = false) →
      containsSub m (joinNl ls) = false
  | [], _ => by
    rw [containsSub_false_iff_no_occurs]
    intro k hk
    unfold occursAt at hk
    rw [show joinNl [] = [] from rfl, List.drop_nil, List.isPrefixOf_iff_prefix] at hk
    exact hm (List.prefix_nil.mp hk)
  | [l], h => by
    rw [joinNl]
    exact h l (by simp)
  | l :: l2 :: ls, h => by
    rw [joinNl]
    refine containsSub_append_nl_false hm hnl (h l (by simp)) ?_
    exact containsSub_joinNl_false hm hnl (l2 :: ls) (fun x hx => h x (List.mem_cons_of_mem _ hx))

-- ════════════════════════════════════════════════════════════
-- §21 Theorems: branch-notes filename round trip (C10 support)
-- ════════════════════════════════════════════════════════════

theorem containsSub_false_iff {m s : List Char} :
    containsSub m s = false ↔ firstIdx m s = none := by
  unfold containsSub
  cases firstIdx m s <;> simp

theorem firstIdx_cons_none {m : List Char} {c : Char} {s : List Char}
    (h : firstIdx m (c :: s) = none) : firstIdx m s = none := by
  rw [firstIdx] at h
  by_cases hp : m.isPrefixOf (c :: s)
  · rw [if_pos hp] at h; cases h
  · rw [if_neg hp] at h
    exact Option.map_eq_none'.mp h

theorem containsSub_cons_false {m : List Char} {c : Char} {s : List Char}
    (h : containsSub m (c :: s) = false) : containsSub m s = false :=
  containsSub_false_iff.mpr (firstIdx_cons_none (containsSub_false_iff.mp h))

theorem not_prefix_of_containsSub_false {m : List Char} {c : Char} {s : List Char}
    (h : containsSub m (c :: s) = false) : ¬ m.isPrefixOf (c :: s) := by
  intro hp
  rw [containsSub_false_iff, firstIdx, if_pos hp] at h
  cases h

theorem decodeUnderscores_cons_ne (c : Char) (s : List Char)
    (h : c ≠ '_' ∨ s.head? ≠ some '_') :
    decodeUnderscores (c :: s) = c :: decodeUnderscores s := by
  cases s with
  | nil => rfl
  | cons d rest =>
    have hcond : (c = '_' && d = '_') = false := by
      rcases h with h | h
      · simp [h]
      · simp only [List.head?] at h
        simp at h
        simp [h]
    simp [decodeUnderscores, hcond]

/-- Core of the branch-notes round trip: encoding then decoding restores a
branch name that contains neither a double underscore nor an underscore
directly followed by a slash (decoding scans left to right, so an
underscore just before an encoded slash would shift the match). -/
theorem decode_encode_md (b : List Char)
    (h1 : containsSub "__".data b = false)
    (h2 : containsSub "_/".data b = false) :
    decodeUnderscores (encodeSlashes b ++ ".md".data) = b ++ ".md".data := by
  induction b with
  | nil => decide
  | cons c b' ih =>
    have h1' := containsSub_cons_false h1
    have h2' := containsSub_cons_false h2
    by_cases hc : c = '/'
    · subst hc
      rw [show encodeSlashes ('/' :: b') = '_' :: '_' :: encodeSlashes b' from by
        simp [encodeSlashes]]
      rw [List.cons_append, List.cons_append]
      rw [show decodeUnderscores ('_' :: '_' :: (encodeSlashes b' ++ ".md".data))
            = '/' :: decodeUnderscores (encodeSlashes b' ++ ".md".data) from by
        simp [decodeUnderscores]]
      rw [ih h1' h2']
      rfl
    · rw [show encodeSlashes (c :: b') = c :: encodeSlashes b' from by
        simp [encodeSlashes, hc]]
      rw [List.cons_append]
      by_cases hu : c = '_'
      · subst hu
        have hhead : (encodeSlashes b' ++ ".md".data).head? ≠ some '_' := by
          cases b' with
          | nil => decide
          | cons d rest =>
            have hd : d ≠ '_' := by
              intro hdd
              subst hdd
              exact not_prefix_of_containsSub_false h1 (by simp [List.isPrefixOf])
            have hd2 : d ≠ '/' := by
              intro hdd
              subst hdd
              exact not_prefix_of_containsSub_false h2 (by simp [List.isPrefixOf])
            rw [show encodeSlashes (d :: rest) = d :: encodeSlashes rest from by
              simp [encodeSlashes, hd2]]
            simp [hd]
        rw [decodeUnderscores_cons_ne _ _ (Or.inr hhead)]
        rw [ih h1' h2']
        rfl
      · rw [decodeUnderscores_cons_ne _ _ (Or.inl hu)]
        rw [ih h1' h2']
        rfl

theorem stripMdSuffix_append (b : List Char) :
    stripMdSuffix (b ++ ".md".data) = b := by
  unfold stripMdSuffix
  rw [if_pos (by rw [List.isSuffixOf_iff_suffix]; exact List.suffix_append _ _)]
  have hl : (b ++ ".md".data).length - 3 = b.length := by
    simp
  rw [hl]
  exact List.take_left _ _

-- ════════════════════════════════════════════════════════════
-- §22 Claim theorems C1, C6, C7, C10
-- ════════════════════════════════════════════════════════════

/-- C1: the spec claims every sequence of sequential addTodo calls in one
process yields pairwise-distinct IDs (and the repository's own test
expects 100 distinct IDs from 100 rapid calls).  The ID is generated from
the millisecond clock alone, so two calls inside the same millisecond
(clock value 1700000000000 twice) return the identical ID
todo_loyw3v28, refuting the claim: the resulting ID list is not
duplicate-free. -/
theorem c1_addTodo_same_millisecond_ids_collide :
    (runAddTodos [(1700000000000, "Task 0"), (1700000000000, "Task 1")] []).map Todo.id
      = ["todo_loyw3v28", "todo_loyw3v28"]
    ∧ ¬ ((runAddTodos [(1700000000000, "Task 0"), (1700000000000, "Task 1")] []).map Todo.id).Nodup := by
  constructor
  · decide
  · decide

/-- C6: a reader facing a state or todo document whose content fails to
parse returns the default (respectively empty) value instead of
propagating the failure, and a missing document behaves the same way; a
corrupted document is indistinguishable from an absent one. -/
theorem c6_corrupt_readers_return_defaults
    (parseState : String → Option ProjectState)
    (parseTodos : String → Option (List Todo))
    (root nowIso raw : String) (b : Option String) (st : Option TodoStatus) :
    (parseState raw = none →
      getProjectState parseState root nowIso (some raw) = defaultProjectState root nowIso)
    ∧ (parseTodos raw = none → getTodos parseTodos (some raw) b st = [])
    ∧ getProjectState parseState root nowIso none = defaultProjectState root nowIso
    ∧ getTodos parseTodos none b st = [] := by
  refine ⟨fun h => ?_, fun h => ?_, rfl, rfl⟩
  · simp only [getProjectState]
    rw [h]
  · simp only [getTodos]
    rw [h]

/-- Witness for C6 at a concrete corrupt document: a parse function that
rejects the content, a truncated JSON text, and concrete filters. -/
theorem c6_corrupt_readers_return_defaults_witness :
    getProjectState (fun _ => none) "/home/dev/proj" "2026-02-15T00:00:00.000Z"
        (some "\x7b\"projectName\": tru")
      = defaultProjectState "/home/dev/proj" "2026-02-15T00:00:00.000Z"
    ∧ getTodos (fun _ => none) (some "\x7b\"id\": tru") (some "main") (some .todo) = [] := by
  exact ⟨(c6_corrupt_readers_return_defaults (fun _ => none) (fun _ => none)
      "/home/dev/proj" "2026-02-15T00:00:00.000Z" "\x7b\"projectName\": tru"
      (some "main") (some .todo)).1 rfl,
    (c6_corrupt_readers_return_defaults (fun _ => none) (fun _ => none)
      "/home/dev/proj" "2026-02-15T00:00:00.000Z" "\x7b\"id\": tru"
      (some "main") (some .todo)).2.1 rfl⟩

/-- C7: the claim says every installed hook script honours the
DEVCTX_SKIP_HOOKS signal set by execGitOp.  The wrapper does set the
variable to 1 in the child environment, but none of the four generated
hook scripts contains the variable name at all, so no hook can read —
let alone honour — the signal, and explicitly-logged operations are
double-logged.  This contradicts the repository's own documentation
(hooks check DEVCTX_SKIP_HOOKS and exit early). -/
theorem c7_hooks_never_read_skip_signal :
    containsSub "DEVCTX_SKIP_HOOKS".data generatePostCommitHook.data = false
    ∧ containsSub "DEVCTX_SKIP_HOOKS".data generatePostCheckoutHook.data = false
    ∧ containsSub "DEVCTX_SKIP_HOOKS".data generatePostMergeHook.data = false
    ∧ containsSub "DEVCTX_SKIP_HOOKS".data generatePrePushHook.data = false
    ∧ ∀ env : String → Option String, execGitOpEnv env "DEVCTX_SKIP_HOOKS" = some "1" := by
  refine ⟨?_, ?_, ?_, ?_, fun env => rfl⟩
  · exact containsSub_joinNl_false (by decide) (by decide)
      (postCommitHookLines.map String.data) (by decide)
  · exact containsSub_joinNl_false (by decide) (by decide)
      (postCheckoutHookLines.map String.data) (by decide)
  · exact containsSub_joinNl_false (by decide) (by decide)
      (postMergeHookLines.map String.data) (by decide)
  · exact containsSub_joinNl_false (by decide) (by decide)
      (prePushHookLines.map String.data) (by decide)

/-- C10 counterexample: the branch name a_/b contains no double
underscore, yet saving and listing returns a/_b, not the original name —
the positive half of the claim fails for names with an underscore
directly before a slash (both encode to a___b and decoding is
leftmost-first). -/
theorem c10_roundtrip_counterexample :
    containsSub "__".data "a_/b".data = false
    ∧ listBranchNotes [branchFileName "a_/b"] = ["a/_b"]
    ∧ ("a/_b" : String) ≠ "a_/b" := by
  refine ⟨by decide, by decide, by decide⟩

/-- C10 amended: the round trip is exact for branch names containing
neither a double underscore nor an underscore directly followed by a
slash; and for a name that already contains a double underscore
(feat__x) the decoded name differs from the saved one. -/
theorem c10_branch_roundtrip_amended :
    (∀ b : String,
      containsSub "__".data b.data = false →
      containsSub "_/".data b.data = false →
      listBranchNotes [branchFileName b] = [b])
    ∧ decodeBranchFile (branchFileName "feat__x") = "feat/x"
    ∧ ("feat/x" : String) ≠ "feat__x" := by
  refine ⟨?_, by decide, by decide⟩
  intro b h1 h2
  have hsuf : ".md".data.isSuffixOf (branchFileName b).data = true := by
    rw [List.isSuffixOf_iff_suffix]
    exact List.suffix_append _ _
  have hdec : decodeBranchFile (branchFileName b) = b := by
    unfold decodeBranchFile branchFileName
    simp only
    rw [decode_encode_md b.data h1 h2, stripMdSuffix_append]
  simp [listBranchNotes, hsuf, hdec]

/-- Witness for the amended C10 round trip at the concrete branch name
feature/auth. -/
theorem c10_branch_roundtrip_amended_witness :
    listBranchNotes [branchFileName "feature/auth"] = ["feature/auth"] :=
  c10_branch_roundtrip_amended.1 "feature/auth" (by decide) (by decide)

-- ════════════════════════════════════════════════════════════
-- §23 Theorems: deduplicator order, sortedness, idempotence (C9) and
-- goodbye suggestion filtering (C3)
-- ════════════════════════════════════════════════════════════

theorem char_eq_of_toNat_eq {a b : Char} (h : a.toNat = b.toNat) : a = b := by
  unfold Char.toNat at h
  exact Char.ext (UInt32.toNat.inj h)

theorem ltTok_irrefl : ∀ t : List Char, ltTok t t = false
  | [] => rfl
  | a :: as => by
    rw [ltTok]
    simp [ltTok_irrefl as]

theorem ltTok_trans : ∀ {a b c : List Char},
    ltTok a b = true → ltTok b c = true → ltTok a c = true
  | [], [], _, h1, _ => by cases h1
  | [], _ :: _, [], _, h2 => by cases h2
  | [], _ :: _, _ :: _, _, _ => rfl
  | _ :: _, [], _, h1, _ => by cases h1
  | _ :: _, _ :: _, [], _, h2 => by cases h2
  | a :: as, b :: bs, c :: cs, h1, h2 => by
    rw [ltTok] at h1 h2 ⊢
    by_cases hab : a.toNat < b.toNat
    · by_cases hbc : b.toNat < c.toNat
      · rw [if_pos (by omega)]
      · rw [if_neg hbc] at h2
        by_cases hcb : c.toNat < b.toNat
        · rw [if_pos hcb] at h2; cases h2
        · rw [if_pos (by omega)]
    · rw [if_neg hab] at h1
      by_cases hba : b.toNat < a.toNat
      · rw [if_pos hba] at h1; cases h1
      · rw [if_neg hba] at h1
        have hveq : a.toNat = b.toNat := by omega
        by_cases hbc : b.toNat < c.toNat
        · rw [if_pos (by omega)]
        · rw [if_neg hbc] at h2
          by_cases hcb : c.toNat < b.toNat
          · rw [if_pos hcb] at h2; cases h2
          · rw [if_neg hcb] at h2
            rw [if_neg (by omega), if_neg (by omega)]
            exact ltTok_trans h1 h2

theorem ltTok_connex : ∀ {a b : List Char},
    ltTok a b = false → a ≠ b → ltTok b a = true
  | [], [], _, hne => absurd rfl hne
  | [], _ :: _, h, _ => by cases h
  | _ :: _, [], _, _ => rfl
  | a :: as, b :: bs, h, hne => by
    rw [ltTok] at h ⊢
    by_cases hab : a.toNat < b.toNat
    · rw [if_pos hab] at h; cases h
    · rw [if_neg hab] at h
      by_cases hba : b.toNat < a.toNat
      · rw [if_pos hba]
      · rw [if_neg hba] at h
        rw [if_neg hba, if_neg hab]
        have heq : a = b := char_eq_of_toNat_eq (by omega)
        subst heq
        have hne' : as ≠ bs := fun hh => hne (by rw [hh])
        exact ltTok_connex h hne'

theorem mem_insertTok {x t : List Char} : ∀ {ts : List (List Char)},
    x ∈ insertTok t ts → x = t ∨ x ∈ ts
  | [], h => by
    rw [insertTok] at h
    simp at h
    exact Or.inl h
  | u :: us, h => by
    rw [insertTok] at h
    by_cases h1 : ltTok t u
    · rw [if_pos h1] at h
      rcases List.mem_cons.mp h with h | h
      · exact Or.inl h
      · exact Or.inr h
    · rw [if_neg h1] at h
      by_cases h2 : t == u
      · rw [if_pos h2] at h
        exact Or.inr h
      · rw [if_neg h2] at h
        rcases List.mem_cons.mp h with h | h
        · exact Or.inr (by rw [h]; exact List.mem_cons_self u us)
        · rcases mem_insertTok h with h | h
          · exact Or.inl h
          · exact Or.inr (List.mem_cons_of_mem _ h)

theorem pairwise_insertTok {t : List Char} : ∀ {ts : List (List Char)},
    List.Pairwise (fun a b => ltTok a b = true) ts →
    List.Pairwise (fun a b => ltTok a b = true) (insertTok t ts)
  | [], _ => by
    rw [insertTok]
    exact List.pairwise_singleton _ _
  | u :: us, h => by
    rw [insertTok]
    rcases List.pairwise_cons.mp h with ⟨hu, hus⟩
    by_cases h1 : ltTok t u
    · rw [if_pos h1]
      refine List.pairwise_cons.mpr ⟨?_, h⟩
      intro x hx
      rcases List.mem_cons.mp hx with hx | hx
      · subst hx; exact h1
      · exact ltTok_trans h1 (hu x hx)
    · rw [if_neg h1]
      by_cases h2 : t == u
      · rw [if_pos h2]
        exact h
      · rw [if_neg h2]
        have hne : t ≠ u := by simpa using h2
        have hut : ltTok u t = true := ltTok_connex (by simpa using h1) hne
        refine List.pairwise_cons.mpr ⟨?_, pairwise_insertTok hus⟩
        intro x hx
        rcases mem_insertTok hx with hx | hx
        · subst hx; exact hut
        · exact hu x hx

theorem dedupSort_pairwise : ∀ ts : List (List Char),
    List.Pairwise (fun a b => ltTok a b = true) (dedupSort ts)
  | [] => List.Pairwise.nil
  | t :: ts => by
    rw [show dedupSort (t :: ts) = insertTok t (dedupSort ts) from rfl]
    exact pairwise_insertTok (dedupSort_pairwise ts)

theorem nodup_of_pairwise_ltTok {l : List (List Char)}
    (h : List.Pairwise (fun a b => ltTok a b = true) l) : l.Nodup := by
  refine h.imp ?_
  intro a b hab
  intro hEq
  subst hEq
  rw [ltTok_irrefl a] at hab
  cases hab

theorem dedupSort_eq_self {ts : List (List Char)}
    (h : List.Pairwise (fun a b => ltTok a b = true) ts) : dedupSort ts = ts := by
  induction ts with
  | nil => rfl
  | cons t ts ih =>
    rcases List.pairwise_cons.mp h with ⟨ht, hts⟩
    rw [show dedupSort (t :: ts) = insertTok t (dedupSort ts) from rfl, ih hts]
    cases ts with
    | nil => rfl
    | cons u us =>
      rw [insertTok, if_pos (ht u (List.mem_cons_self u us))]


theorem map_id_of_fixed {α : Type} {l : List α} {f : α → α}
    (h : ∀ c ∈ l, f c = c) : l.map f = l := by
  conv_rhs => rw [← List.map_id l]
  exact List.map_congr_left h

theorem joinSpace_map_lowerCh : ∀ ts : List (List Char),
    (∀ t ∈ ts, ∀ c ∈ t, lowerCh c = c) →
    (joinSpace ts).map lowerCh = joinSpace ts
  | [], _ => rfl
  | [t], h => by
    rw [joinSpace]
    exact map_id_of_fixed (h t (by simp))
  | t :: t2 :: ts, h => by
    rw [joinSpace, List.map_append]
    rw [map_id_of_fixed (h t (by simp))]
    rw [show List.map lowerCh (' ' :: joinSpace (t2 :: ts))
          = ' ' :: List.map lowerCh (joinSpace (t2 :: ts)) from by simp [lowerCh]]
    rw [joinSpace_map_lowerCh (t2 :: ts) (fun x hx => h x (List.mem_cons_of_mem _ hx))]

theorem splitAlnum_single : ∀ t : List Char, t ≠ [] → (∀ c ∈ t, isAlnum c = true) →
    splitAlnum t = [t]
  | [], h, _ => absurd rfl h
  | c :: rest, _, hal => by
    rw [splitAlnum]
    rw [if_pos (hal c (by simp))]
    cases rest with
    | nil => rfl
    | cons d rest' =>
      have hd : isAlnum d = true := hal d (by simp)
      rw [if_pos (by simp [hd])]
      rw [splitAlnum_single (d :: rest') (by simp)
        (fun x hx => hal x (List.mem_cons_of_mem _ hx))]

theorem splitAlnum_token_sep : ∀ (t r : List Char), t ≠ [] →
    (∀ c ∈ t, isAlnum c = true) →
    splitAlnum (t ++ ' ' :: r) = t :: splitAlnum r
  | [], _, h, _ => absurd rfl h
  | [c], r, _, hal => by
    rw [List.cons_append, List.nil_append, splitAlnum]
    rw [if_pos (hal c (by simp))]
    rw [show (' ' :: r).head?.any isAlnum = false from by simp [isAlnum]]
    rw [if_neg (by simp)]
    rw [show splitAlnum (' ' :: r) = splitAlnum r from by rw [splitAlnum]; simp [isAlnum]]
  | c :: d :: t', r, _, hal => by
    rw [List.cons_append, splitAlnum]
    rw [if_pos (hal c (by simp))]
    have hd : isAlnum d = true := hal d (by simp)
    rw [if_pos (by simp [hd])]
    rw [splitAlnum_token_sep (d :: t') r (by simp)
      (fun x hx => hal x (List.mem_cons_of_mem _ hx))]

theorem splitAlnum_joinSpace : ∀ ts : List (List Char),
    (∀ t ∈ ts, t ≠ [] ∧ ∀ c ∈ t, isAlnum c = true) →
    splitAlnum (joinSpace ts) = ts
  | [], _ => rfl
  | [t], h => by
    rw [joinSpace]
    exact splitAlnum_single t (h t (by simp)).1 (h t (by simp)).2
  | t :: t2 :: ts, h => by
    rw [joinSpace]
    rw [splitAlnum_token_sep t (joinSpace (t2 :: ts)) (h t (by simp)).1 (h t (by simp)).2]
    rw [splitAlnum_joinSpace (t2 :: ts) (fun x hx => h x (List.mem_cons_of_mem _ hx))]

/-- C9 amended: for every input the signature's tokens are strictly
sorted and duplicate-free; and normalize is idempotent on its own output
whenever every output token is canonical (nonempty, not a stop word, and
fixed under the stemmer).  The unconditional idempotence and stop-word
freedom of the claim fail because the spec's pipeline drops stop words
before stemming, so a token may stem into the stop-word set
(counterexample below). -/
theorem c9_normalize_canonical_amended (s : String) :
    List.Pairwise (fun a b => ltTok a b = true) (normalizeTokens s.data)
    ∧ (normalizeTokens s.data).Nodup
    ∧ ((normalizeTokens s.data).all canonicalToken = true →
        normalizeForComparison (normalizeForComparison s) = normalizeForComparison s) := by
  have hpw : List.Pairwise (fun a b => ltTok a b = true) (normalizeTokens s.data) := by
    rw [normalizeTokens]
    exact dedupSort_pairwise _
  refine ⟨hpw, nodup_of_pairwise_ltTok hpw, fun hall => ?_⟩
  have hmem := List.all_eq_true.mp hall
  have hcanon : ∀ t ∈ normalizeTokens s.data,
      t ≠ [] ∧ (∀ c ∈ t, isAlnum c = true ∧ lowerCh c = c)
      ∧ isStop t = false ∧ pseudoStem t = t := by
    intro t ht
    have hcv := hmem t ht
    unfold canonicalToken at hcv
    rw [Bool.and_eq_true, Bool.and_eq_true, Bool.and_eq_true] at hcv
    obtain ⟨⟨⟨h1, h2⟩, h3⟩, h4⟩ := hcv
    refine ⟨by simpa using h1, ?_, by simpa using h3, by simpa using h4⟩
    intro c hc
    have := List.all_eq_true.mp h2 c hc
    rw [Bool.and_eq_true] at this
    exact ⟨this.1, by simpa using this.2⟩
  have hdata : (normalizeForComparison s).data = joinSpace (normalizeTokens s.data) := rfl
  have hkey : normalizeTokens (joinSpace (normalizeTokens s.data)) = normalizeTokens s.data := by
    rw [normalizeTokens]
    rw [joinSpace_map_lowerCh _ (fun t ht c hc => ((hcanon t ht).2.1 c hc).2)]
    rw [splitAlnum_joinSpace _ (fun t ht => ⟨(hcanon t ht).1, fun c hc => ((hcanon t ht).2.1 c hc).1⟩)]
    rw [List.filter_eq_self.mpr (fun t ht => by simp [(hcanon t ht).2.2.1])]
    rw [map_id_of_fixed (fun t ht => (hcanon t ht).2.2.2)]
    exact dedupSort_eq_self hpw
  unfold normalizeForComparison
  refine congrArg String.mk ?_
  show joinSpace (normalizeTokens (joinSpace (normalizeTokens s.data))) = joinSpace (normalizeTokens s.data)
  rw [hkey]

/-- C9 counterexample: the input adds normalizes to the signature add,
which is itself a stop word, so the output is not stop-word free and a
second application of normalize removes it — normalize is not idempotent
on its own output as claimed. -/
theorem c9_normalize_counterexample :
    normalizeForComparison "adds" = "add"
    ∧ isStop "add".data = true
    ∧ normalizeForComparison (normalizeForComparison "adds") ≠ normalizeForComparison "adds" := by
  refine ⟨by decide, by decide, by decide⟩

/-- Witness for the amended C9 at the concrete input Fix login bug,
whose three output tokens are all canonical. -/
theorem c9_normalize_canonical_amended_witness :
    (normalizeTokens "Fix login bug".data).all canonicalToken = true
    ∧ normalizeForComparison (normalizeForComparison "Fix login bug")
        = normalizeForComparison "Fix login bug" :=
  ⟨by decide, (c9_normalize_canonical_amended "Fix login bug").2.2 (by decide)⟩

theorem foldl_addSuggested (nowMs : Nat) (nowIso : String) (br : Option String) :
    ∀ (ss : List (String × Priority)) (acc : List Todo),
      ss.foldl (fun a s => (addTodoWithSource nowMs nowIso a s.1 s.2 br none .suggested).1) acc
        = acc ++ ss.map (fun s => (addTodoWithSource nowMs nowIso [] s.1 s.2 br none .suggested).2)
  | [], acc => by simp
  | s :: ss, acc => by
    rw [List.foldl_cons, foldl_addSuggested nowMs nowIso br ss]
    rw [show (addTodoWithSource nowMs nowIso acc s.1 s.2 br none .suggested).1
          = acc ++ [(addTodoWithSource nowMs nowIso [] s.1 s.2 br none .suggested).2] from rfl]
    simp

theorem insertSuggested_eq_append (nowMs : Nat) (nowIso branch : String)
    (todos : List Todo) (suggestions : List (String × Priority)) :
    insertSuggestedTodos nowMs nowIso branch todos suggestions
      = todos ++ suggestions.map
          (fun s => (addTodoWithSource nowMs nowIso [] s.1 s.2 (some branch) none .suggested).2) := by
  unfold insertSuggestedTodos
  exact foldl_addSuggested nowMs nowIso (some branch) _ todos

/-- C3: the claim says suggestions similar to an existing active todo are
suppressed, but the goodbye handler's loop inserts every collaborator
suggestion with no similarity comparison.  Proved: the insertion loop
appends one todo per suggestion unconditionally, and on the spec's own
scenario — one active todo Fix login bug, suggestion Fix login bug in
auth flow — the suggestion is similar per the deduplicator (the
spec's-words predicate) yet is inserted anyway, with source suggested. -/
theorem c3_similar_suggestion_not_suppressed :
    (∀ (nowMs : Nat) (nowIso branch : String) (todos : List Todo)
       (suggestions : List (String × Priority)),
      insertSuggestedTodos nowMs nowIso branch todos suggestions
        = todos ++ suggestions.map
            (fun s => (addTodoWithSource nowMs nowIso [] s.1 s.2 (some branch) none .suggested).2))
    ∧ isSimilarToAny "Fix login bug in auth flow"
        (activeTodoSignatures
          [{ id := "todo_1", text := "Fix login bug", status := .todo, branch := none,
             priority := .medium, created := "2026-02-14", updated := "2026-02-14",
             tags := none, source := some .manual }]) = true
    ∧ insertSuggestedTodos 1700000000000 "2026-02-15T00:00:00.000Z" "main"
        [{ id := "todo_1", text := "Fix login bug", status := .todo, branch := none,
           priority := .medium, created := "2026-02-14", updated := "2026-02-14",
           tags := none, source := some .manual }]
        [("Fix login bug in auth flow", Priority.high)]
      = [{ id := "todo_1", text := "Fix login bug", status := .todo, branch := none,
           priority := .medium, created := "2026-02-14", updated := "2026-02-14",
           tags := none, source := some .manual },
         { id := addTodoId 1700000000000, text := "Fix login bug in auth flow",
           status := .todo, branch := some "main", priority := .high,
           created := "2026-02-15T00:00:00.000Z", updated := "2026-02-15T00:00:00.000Z",
           tags := none, source := some .suggested }] := by
  refine ⟨?_, by decide, rfl⟩
  intro nowMs nowIso branch todos suggestions
  exact insertSuggested_eq_append nowMs nowIso branch todos suggestions

-- ════════════════════════════════════════════════════════════
-- §24 Theorems: session lifecycle (C5) and degraded goodbye (C4)
-- ════════════════════════════════════════════════════════════

/-- C5: in one process the session-start bookkeeping runs on the first
invocation — exactly one session_start entry is appended, a paused
project is auto-resumed (active is true afterwards), the one-time
greeting is stashed — and every later invocation in the process is the
identity on the process state and the disk (the fired-once flag is set
and never revisited). -/
theorem c5_session_start_once (root branch nowIso : String) (p0 : McpProcess) (d0 : Disk)
    (hstart : p0.sessionStarted = false) (hinit : isDevctxInitialized d0 = true) :
    (autoSessionStart root branch nowIso p0 d0).1.sessionStarted = true
    ∧ (autoSessionStart root branch nowIso p0 d0).2.activity
        = d0.activity ++ [{ timestamp := nowIso, entryType := "session_start",
                            message := "Session started", branch := branch, metadata := [] }]
    ∧ isDevctxActive root nowIso (autoSessionStart root branch nowIso p0 d0).2 = true
    ∧ (autoSessionStart root branch nowIso p0 d0).1.pendingGreeting.isSome = true
    ∧ ∀ n : Nat,
        (fun pd : McpProcess × Disk => autoSessionStart root branch nowIso pd.1 pd.2)^[n]
          (autoSessionStart root branch nowIso p0 d0)
        = autoSessionStart root branch nowIso p0 d0 := by
  have hcond : (p0.sessionStarted || !isDevctxInitialized d0) = false := by
    rw [hstart, hinit]
    rfl
  have hmain : ∀ r : McpProcess × Disk,
      r = autoSessionStart root branch nowIso p0 d0 →
      r.1.sessionStarted = true
      ∧ r.2.activity = d0.activity ++ [{ timestamp := nowIso, entryType := "session_start",
                                          message := "Session started", branch := branch, metadata := [] }]
      ∧ isDevctxActive root nowIso r.2 = true := by
    intro r hr
    rw [autoSessionStart, if_neg (by rw [hcond]; simp)] at hr
    by_cases hw : isDevctxActive root nowIso d0
    · rw [hr]
      simp only [hw]
      refine ⟨by simp, ?_, ?_⟩
      · simp [logActivity]
      · simpa [logActivity, isDevctxActive] using hw
    · rw [hr]
      simp only [Bool.not_eq_true] at hw
      simp only [hw]
      refine ⟨by simp, ?_, ?_⟩
      · simp [logActivity, setDevctxActive]
      · simp [logActivity, setDevctxActive, isDevctxActive, getProjectStateD]
  obtain ⟨h1, h2, h3⟩ := hmain _ rfl
  refine ⟨h1, h2, h3, ?_, ?_⟩
  · rw [autoSessionStart, if_neg (by rw [hcond]; simp)]
    by_cases hw : isDevctxActive root nowIso d0 <;> simp [hw]
  · have hfix : autoSessionStart root branch nowIso
        (autoSessionStart root branch nowIso p0 d0).1
        (autoSessionStart root branch nowIso p0 d0).2
        = autoSessionStart root branch nowIso p0 d0 := by
      conv_lhs => rw [autoSessionStart]
      rw [h1]
      simp
    intro n
    induction n with
    | zero => rfl
    | succ k ih =>
      rw [Function.iterate_succ_apply', ih]
      exact hfix

/-- C4: when the narrative collaborator errors or times out (the none
outcome, absorbed by generateGoodbyeSummary's fallback), the goodbye
workflow still returns a non-error result, still writes exactly one new
session-record document, still pauses tracking (active becomes false)
and still appends the session_end entry — nothing is raised and nothing
is skipped. -/
theorem c4_goodbye_degraded (root nowIso dateDisplay lastUpd : String) (clockMs : Nat)
    (status : GitStatus) (commits : List GitCommit) (dur : Option String)
    (msg : Option String) (d : Disk)
    (hact : isDevctxActive root nowIso d = true)
    (hinit : isDevctxInitialized d = true) :
    (devctxGoodbye none root nowIso dateDisplay lastUpd clockMs status commits dur msg d).2.isError
        = false
    ∧ (devctxGoodbye none root nowIso dateDisplay lastUpd clockMs status commits dur msg d).1.sessions.length
        = d.sessions.length + 1
    ∧ isDevctxActive root nowIso
        (devctxGoodbye none root nowIso dateDisplay lastUpd clockMs status commits dur msg d).1
        = false
    ∧ (devctxGoodbye none root nowIso dateDisplay lastUpd clockMs status commits dur msg d).1.activity
        = d.activity ++ [{ timestamp := nowIso, entryType := "session_end",
                           message := "Session ended — goodbye summary saved",
                           branch := status.branch, metadata := [] }] := by
  rw [devctxGoodbye]
  rw [if_neg (by rw [hact]; simp)]
  rw [if_neg (by rw [hinit]; simp)]
  refine ⟨rfl, ?_, ?_, ?_⟩
  · simp [logActivity, setDevctxActive]
  · simp [logActivity, setDevctxActive, isDevctxActive, getProjectStateD]
  · simp [logActivity, setDevctxActive]

/-- Witness for C5 on a concrete fresh process and an initialized,
paused project: the flag flips and tracking is auto-resumed. -/
theorem c5_session_start_once_witness :
    (autoSessionStart "/r" "main" "2026-02-15T00:00:00.000Z"
      { sessionStarted := false, pendingGreeting := none }
      { stateFile := some { projectName := "proj", description := "", currentFocus := "",
                            lastUpdated := "t0", active := false },
        todos := [], activity := [], sessions := [], claudeMd := "" }).1.sessionStarted = true
    ∧ isDevctxActive "/r" "2026-02-15T00:00:00.000Z"
        (autoSessionStart "/r" "main" "2026-02-15T00:00:00.000Z"
          { sessionStarted := false, pendingGreeting := none }
          { stateFile := some { projectName := "proj", description := "", currentFocus := "",
                                lastUpdated := "t0", active := false },
            todos := [], activity := [], sessions := [], claudeMd := "" }).2 = true := by
  refine ⟨(c5_session_start_once "/r" "main" "2026-02-15T00:00:00.000Z" _ _ ?_ ?_).1,
          (c5_session_start_once "/r" "main" "2026-02-15T00:00:00.000Z" _ _ ?_ ?_).2.2.1⟩ <;> rfl

/-- Witness for C4 on a concrete active, initialized project with a
failing collaborator: the record count grows to one, tracking pauses and
the response is not an error. -/
theorem c4_goodbye_degraded_witness :
    (devctxGoodbye none "/r" "2026-02-15T18:00:00.000Z" "2/15/2026" "2/15/2026"
      1700000000000
      { branch := "main", isClean := true, staged := [], modified := [], untracked := [],
        ahead := 0, behind := 0 }
      [] none none
      { stateFile := some { projectName := "proj", description := "", currentFocus := "",
                            lastUpdated := "t0", active := true },
        todos := [], activity := [], sessions := [], claudeMd := "" }).2.isError = false
    ∧ (devctxGoodbye none "/r" "2026-02-15T18:00:00.000Z" "2/15/2026" "2/15/2026"
      1700000000000
      { branch := "main", isClean := true, staged := [], modified := [], untracked := [],
        ahead := 0, behind := 0 }
      [] none none
      { stateFile := some { projectName := "proj", description := "", currentFocus := "",
                            lastUpdated := "t0", active := true },
        todos := [], activity := [], sessions := [], claudeMd := "" }).1.sessions.length = 1
    ∧ isDevctxActive "/r" "2026-02-15T18:00:00.000Z"
        (devctxGoodbye none "/r" "2026-02-15T18:00:00.000Z" "2/15/2026" "2/15/2026"
          1700000000000
          { branch := "main", isClean := true, staged := [], modified := [], untracked := [],
            ahead := 0, behind := 0 }
          [] none none
          { stateFile := some { projectName := "proj", description := "", currentFocus := "",
                                lastUpdated := "t0", active := true },
            todos := [], activity := [], sessions := [], claudeMd := "" }).1 = false := by
  refine ⟨(c4_goodbye_degraded "/r" "2026-02-15T18:00:00.000Z" "2/15/2026" "2/15/2026" 1700000000000 _ _ _ _ _ ?_ ?_).1,
          (c4_goodbye_degraded "/r" "2026-02-15T18:00:00.000Z" "2/15/2026" "2/15/2026" 1700000000000 _ _ _ _ _ ?_ ?_).2.1,
          (c4_goodbye_degraded "/r" "2026-02-15T18:00:00.000Z" "2/15/2026" "2/15/2026" 1700000000000 _ _ _ _ _ ?_ ?_).2.2.1⟩ <;> rfl

-- ════════════════════════════════════════════════════════════
-- §25 Theorems: source annotation scanner (C8)
-- ════════════════════════════════════════════════════════════

theorem scan_enumFrom_line_ge (file : String) :
    ∀ (ls : List String) (k : Nat) (r : SourceTodo),
    r ∈ (ls.enumFrom k).filterMap (fun p =>
      (matchTodoLine p.2.data).map fun m =>
        ({ file := file, line := p.1 + 1, tag := m.1,
           text := ⟨trimL (stripCloser m.2)⟩ } : SourceTodo)) →
    k + 1 ≤ r.line
  | [], _, r, h => by simp [List.enumFrom] at h
  | l :: ls, k, r, h => by
    rw [List.enumFrom, List.filterMap_cons] at h
    cases hm : matchTodoLine l.data with
    | none =>
      rw [hm] at h
      simp only [Option.map_none'] at h
      have := scan_enumFrom_line_ge file ls (k + 1) r h
      omega
    | some m =>
      rw [hm] at h
      simp only [Option.map_some'] at h
      rcases List.mem_cons.mp h with h | h
      · rw [h]
      · have := scan_enumFrom_line_ge file ls (k + 1) r h
        omega

theorem scanFilter_aux (file : String) :
    ∀ (ls : List String) (k i : Nat) (l : String) (tg : String) (rest : List Char),
    ls[i]? = some l →
    matchTodoLine l.data = some (tg, rest) →
    ((ls.enumFrom k).filterMap (fun p =>
        (matchTodoLine p.2.data).map fun m =>
          ({ file := file, line := p.1 + 1, tag := m.1,
             text := ⟨trimL (stripCloser m.2)⟩ } : SourceTodo))).filter
        (fun r => r.line == k + i + 1)
      = [{ file := file, line := k + i + 1, tag := tg,
           text := ⟨trimL (stripCloser rest)⟩ }]
  | [], k, i, l, tg, rest, hl, hm => by simp at hl
  | l0 :: ls, k, i, l, tg, rest, hl, hm => by
    rw [List.enumFrom, List.filterMap_cons]
    cases i with
    | zero =>
      rw [List.getElem?_cons_zero] at hl
      cases hl
      rw [hm]
      simp only [Option.map_some']
      rw [List.filter_cons]
      rw [if_pos (by simp)]
      congr 1
      rw [List.filter_eq_nil_iff]
      intro r hr
      have := scan_enumFrom_line_ge file ls (k + 1) r hr
      simp only [beq_iff_eq]
      omega
    | succ j =>
      rw [List.getElem?_cons_succ] at hl
      have htail := scanFilter_aux file ls (k + 1) j l tg rest hl hm
      cases hm0 : matchTodoLine l0.data with
      | none =>
        simp only [hm0, Option.map_none']
        rw [show k + 1 + j + 1 = k + (j + 1) + 1 from by omega] at htail
        exact htail
      | some m0 =>
        simp only [hm0, Option.map_some']
        rw [List.filter_cons]
        rw [if_neg (by simp only [beq_iff_eq]; omega)]
        rw [show k + 1 + j + 1 = k + (j + 1) + 1 from by omega] at htail
        exact htail

mutual
theorem mem_collectEntry : ∀ (x : List String × List String) (d : Nat)
    (pre : List String) (e : FSTree) (acc : List (List String × List String)),
    x ∈ collectEntry d pre e acc →
    x ∈ acc ∨ ∃ suf, x.1 = pre ++ suf ∧ ∀ c ∈ suf, skipName c = false
  | x, d, pre, .file n lines, acc, h => by
    rw [collectEntry] at h
    by_cases hskip : skipName n
    · rw [if_pos hskip] at h
      exact Or.inl h
    · rw [if_neg hskip] at h
      by_cases hext : SOURCE_EXTENSIONS.contains (extOf n)
      · rw [if_pos hext] at h
        rcases List.mem_append.mp h with h | h
        · exact Or.inl h
        · refine Or.inr ⟨[n], ?_, ?_⟩
          · simp at h
            rw [h]
          · intro c hc
            rcases List.mem_singleton.mp hc with rfl
            simpa using hskip
      · rw [if_neg hext] at h
        exact Or.inl h
  | x, d, pre, .dir n es, acc, h => by
    rw [collectEntry] at h
    by_cases hskip : skipName n
    · rw [if_pos hskip] at h
      exact Or.inl h
    · rw [if_neg hskip] at h
      by_cases hstop : d + 1 > MAX_DEPTH || acc.length ≥ MAX_FILES
      · rw [if_pos hstop] at h
        exact Or.inl h
      · rw [if_neg hstop] at h
        rcases mem_collectEntries x (d + 1) (pre ++ [n]) es acc h with h | ⟨suf, hsuf, hok⟩
        · exact Or.inl h
        · refine Or.inr ⟨n :: suf, by rw [hsuf]; simp, ?_⟩
          intro c hc
          rcases List.mem_cons.mp hc with rfl | hc
          · simpa using hskip
          · exact hok c hc

theorem mem_collectEntries : ∀ (x : List String × List String) (d : Nat)
    (pre : List String) (es : List FSTree) (acc : List (List String × List String)),
    x ∈ collectEntries d pre es acc →
    x ∈ acc ∨ ∃ suf, x.1 = pre ++ suf ∧ ∀ c ∈ suf, skipName c = false
  | x, d, pre, [], acc, h => by
    rw [collectEntries] at h
    exact Or.inl h
  | x, d, pre, e :: es, acc, h => by
    rw [collectEntries] at h
    by_cases hstop : acc.length ≥ MAX_FILES
    · rw [if_pos hstop] at h
      exact Or.inl h
    · rw [if_neg hstop] at h
      rcases mem_collectEntries x d pre es (collectEntry d pre e acc) h with h | h
      · exact mem_collectEntry x d pre e acc h
      · exact Or.inr h
end

/-- C8: a line that reads exactly the line-comment annotation yields
exactly one record — tag TODO, text fix this, correct 1-indexed line
(stated as: filtering the file's records by that line number yields
precisely that record); the block-comment variant has its trailing
closer stripped from the captured text; and every file collected by the
walk has no skipped-directory or dot component anywhere in its path, so
files under skipped directories are never scanned. -/
theorem c8_scanner_records_and_skips :
    (∀ (file : String) (lines : List String) (i : Nat),
      i < MAX_LINES_PER_FILE →
      lines[i]? = some "// TODO: fix this" →
      (scanFileLines file lines).filter (fun r => r.line == i + 1)
        = [{ file := file, line := i + 1, tag := "TODO", text := "fix this" }])
    ∧ (∀ (file : String) (lines : List String) (i : Nat),
      i < MAX_LINES_PER_FILE →
      lines[i]? = some "/* TODO: fix this */" →
      (scanFileLines file lines).filter (fun r => r.line == i + 1)
        = [{ file := file, line := i + 1, tag := "TODO", text := "fix this" }])
    ∧ (∀ (entries : List FSTree) (f : List String × List String),
      f ∈ collectFiles entries → ∀ c ∈ f.1, skipName c = false) := by
  refine ⟨?_, ?_, ?_⟩
  · intro file lines i hi hl
    have htake : (lines.take MAX_LINES_PER_FILE)[i]? = some "// TODO: fix this" := by
      rw [List.getElem?_take_of_lt hi]
      exact hl
    have := scanFilter_aux file (lines.take MAX_LINES_PER_FILE) 0 i
      "// TODO: fix this" "TODO" "fix this".data htake (by decide)
    rw [show (0 : Nat) + i + 1 = i + 1 from by omega] at this
    unfold scanFileLines
    rw [show (lines.take MAX_LINES_PER_FILE).enum
          = (lines.take MAX_LINES_PER_FILE).enumFrom 0 from rfl]
    rw [this]
    congr 1
  · intro file lines i hi hl
    have htake : (lines.take MAX_LINES_PER_FILE)[i]? = some "/* TODO: fix this */" := by
      rw [List.getElem?_take_of_lt hi]
      exact hl
    have := scanFilter_aux file (lines.take MAX_LINES_PER_FILE) 0 i
      "/* TODO: fix this */" "TODO" "fix this */".data htake (by decide)
    rw [show (0 : Nat) + i + 1 = i + 1 from by omega] at this
    unfold scanFileLines
    rw [show (lines.take MAX_LINES_PER_FILE).enum
          = (lines.take MAX_LINES_PER_FILE).enumFrom 0 from rfl]
    rw [this]
    congr 1
  · intro entries f hf c hc
    rcases mem_collectEntries f 0 [] entries [] hf with h | ⟨suf, hsuf, hok⟩
    · simp at h
    · rw [List.nil_append] at hsuf
      exact hok c (by rw [← hsuf]; exact hc)

/-- Witness for C8 on concrete inputs: a two-line file with the
annotation on line 2, a one-line block-comment file, and a tree whose
node_modules branch is ignored while src/app.ts is collected. -/
theorem c8_scanner_records_and_skips_witness :
    ((0 : Nat) < MAX_LINES_PER_FILE
      ∧ (["const x = 1;", "// TODO: fix this"] : List String)[1]? = some "// TODO: fix this")
    ∧ (scanFileLines "src/app.ts" ["const x = 1;", "// TODO: fix this"]).filter
        (fun r => r.line == 2)
      = [{ file := "src/app.ts", line := 2, tag := "TODO", text := "fix this" }]
    ∧ (scanFileLines "lib/a.c" ["/* TODO: fix this */"]).filter (fun r => r.line == 1)
      = [{ file := "lib/a.c", line := 1, tag := "TODO", text := "fix this" }]
    ∧ (∀ c ∈ (["src", "app.ts"] : List String), skipName c = false) := by
  refine ⟨⟨by decide, by decide⟩, ?_, ?_, ?_⟩
  · exact c8_scanner_records_and_skips.1 "src/app.ts" ["const x = 1;", "// TODO: fix this"] 1 (by decide) (by decide)
  · exact c8_scanner_records_and_skips.2.1 "lib/a.c" ["/* TODO: fix this */"] 0 (by decide) (by decide)
  · exact c8_scanner_records_and_skips.2.2
      [FSTree.dir "node_modules" [.file "dep.ts" ["// TODO: fix this"]],
       FSTree.dir "src" [.file "app.ts" ["// TODO: fix this"]]]
      (["src", "app.ts"], ["// TODO: fix this"]) (by decide)

-- ════════════════════════════════════════════════════════════
-- §26 Theorems: marker-bounded sync (C2)
-- ════════════════════════════════════════════════════════════

theorem occursAt_of_take_agree {m s t : List Char} {n k : Nat}
    (hagree : s.take n = t.take n) (hwin : k + m.length ≤ n)
    (h : occursAt m s k) : occursAt m t k := by
  rw [occursAt_iff_take] at h ⊢
  have hs : (s.drop k).take m.length = ((s.take n).drop k).take m.length := by
    rw [List.drop_take n k s]
    rw [List.take_take]
    rw [Nat.min_eq_left (by omega)]
  have ht : (t.drop k).take m.length = ((t.take n).drop k).take m.length := by
    rw [List.drop_take n k t]
    rw [List.take_take]
    rw [Nat.min_eq_left (by omega)]
  rw [ht, ← hagree, ← hs]
  exact h

theorem occursAt_in_prefix {m t s : List Char} {k : Nat}
    (hpre : t <+: s) (hwin : k + m.length ≤ t.length)
    (h : occursAt m t k) : occursAt m s k := by
  refine occursAt_of_take_agree (n := t.length) ?_ hwin h
  rw [List.take_of_length_le (le_refl _)]
  rw [List.prefix_iff_eq_take] at hpre
  exact hpre

